import Mathlib

/-!
Verification of the kafa bytecode interpreter (a JVM-style class-file
interpreter written in Rust) against its natural-language specification.

The Rust source is shallowly embedded: machine integers (`i32`, `i64`, `u32`)
become `Int`/`Nat` with explicit wrapping where overflow matters, interior
mutability (`Cell`, the init-state cell, array element cells) becomes explicit
state passing, and fallible operations return `Option`/`Except`.  A Rust
`panic!`/`assert!`/`expect`/built-in arithmetic panic is modelled by the
distinguished outcome `crash` (it aborts the process and is observably
different from a returned `Err`).  Recursive walks over the class hierarchy
are given explicit fuel; `none` marks fuel exhaustion, which the theorems
either discharge at concrete inputs or take as a hypothesis.
-/

namespace Kafa

/-- Runtime slot values (src/vm/value.rs, `enum Value`).  Payloads of the
floating-point variants are never inspected by the properties proved here, so
they are carried as an uninterpreted `Unit`; all integral payloads are `Int`
(for the signed `i8`/`i16`/`i32`/`i64` payloads) or `Nat` (for the unsigned
`u16`/`usize`/`u32` payloads). -/
inductive Value where
  | byte (v : Int)
  | short (v : Int)
  | int (v : Int)
  | long (v : Int)
  | char (v : Nat)
  | float (v : Unit)
  | double (v : Unit)
  | reference (idx : Nat)
  | returnAddress (pc : Nat)
  deriving DecidableEq, Repr

/-- Outcome of running a piece of Rust code that may return a value, return an
error (`Err` of `VMResult`), or panic (`unreachable!`, `assert!`, `expect`,
arithmetic overflow/division panics). -/
inductive RustOutcome (α : Type) where
  | ok (a : α)
  | err (msg : String)
  | crash
  deriving DecidableEq, Repr

/-! ## Boolean arrays (src/vm/heap.rs, `JavaBooleanArray`)

The packed bit representation: one bit per element, MSB-first within each
byte.  `data` is the byte buffer (each entry a `u8`, kept as a `Nat`), `l`
the `u32` element count. -/

structure JavaBooleanArray where
  data : List Nat
  l : Nat
  deriving DecidableEq, Repr

namespace JavaBooleanArray

/-- Embeds `JavaBooleanArray::new` (heap.rs). -/
def new (len : Nat) : JavaBooleanArray :=
  { data := List.replicate (if len = 0 then 0 else (len - 1) / 8 + 1) 0
    l := len }

/-- Embeds `JavaBooleanArray::get` (heap.rs): `None` when `idx >= l`,
otherwise the bit at `(idx / 8, 7 - idx % 8)` as an `Int` value.  The byte
read `self.data[i]` is in bounds whenever `data` has the length `new`
allocates, which the well-formedness hypotheses of the theorems supply;
`getD` is used for the access. -/
def get (a : JavaBooleanArray) (idx : Nat) : Option Value :=
  if a.l ≤ idx then none
  else
    let i := idx / 8
    let s := 7 - idx % 8
    some (Value.int (Int.ofNat ((a.data.getD i 0 >>> s) &&& 1)))

/-- Embeds `JavaBooleanArray::put` (heap.rs).  A non-`Int` value hits
`unreachable!` and the `assert!(i < self.data.len())` failure aborts; both are
the `crash` outcome.  `n &&& 1` mirrors the Rust `n & 1` on `i32` (bitwise and
on the two's-complement representation). -/
def put (a : JavaBooleanArray) (idx : Nat) (v : Value) : RustOutcome JavaBooleanArray :=
  match v with
  | Value.int n =>
    let tf := Int.land n 1 == 1
    let i := idx / 8
    let s := 7 - idx % 8
    if i < a.data.length then
      let mask := 1 <<< s
      let b := a.data.getD i 0
      let b' := if tf then b ||| mask else b &&& (255 ^^^ mask)
      RustOutcome.ok { a with data := a.data.set i b' }
    else RustOutcome.crash
  | _ => RustOutcome.crash

/-- Embeds `JavaBooleanArray::len` (heap.rs). -/
def len (a : JavaBooleanArray) : Nat := a.l

/-- An array is well-formed when its byte buffer has exactly the size
`JavaBooleanArray::new` allocates for its element count. -/
def WF (a : JavaBooleanArray) : Prop :=
  a.data.length = (if a.l = 0 then 0 else (a.l - 1) / 8 + 1)

end JavaBooleanArray

/-! ## Classes and the method area (src/vm/class.rs, src/vm/method_area.rs)

Class loading is an external collaborator (spec §1); every class an execution
touches is assumed to sit, already resolved, in the registry, so
`MethodArea::resolve_class` is embedded as a registry lookup.  Bytecode
execution of `<clinit>` bodies (`Thread::exec_class_initialization` runs the
interpreter) is abstracted by an oracle `String → Bool` giving each class's
`<clinit>` success. -/

/-- Method access flags (class_file.rs, `MethodAccessFlags`), restricted to
the bits the embedded operations inspect. -/
structure MethodAccessFlags where
  isPublic : Bool
  isPrivate : Bool
  isStatic : Bool
  isAbstract : Bool
  deriving DecidableEq, Repr

/-- Embeds `MethodAccessFlags::is_interface_default` (class_file.rs): neither
private, static, nor abstract. -/
def MethodAccessFlags.isInterfaceDefault (f : MethodAccessFlags) : Bool :=
  !(f.isPrivate || f.isStatic || f.isAbstract)

/-- Method signature (class.rs, `MethodSignature`): name and raw descriptor. -/
structure MethodSignature where
  name : String
  descriptor : String
  deriving DecidableEq, Repr

/-- Resolved method (class.rs, `Method`).  The code spec (bytecode body) is
never inspected by the embedded operations, so only flags and signature are
carried. -/
structure Method where
  accessFlags : MethodAccessFlags
  signature : MethodSignature
  deriving DecidableEq, Repr

/-- Instance-field descriptor metadata (class_file.rs `FieldInfo` as kept in
`Class::inst_fields_info`). -/
structure FieldInfo where
  name : String
  descriptor : String
  deriving DecidableEq, Repr

/-- Resolved class (class.rs, `Class`).  The constant pool and static-field
map are not needed by the claims; the mutable `init_state` cell is carried
separately as explicit state (see `InitStateMap`). -/
structure Class where
  name : String
  isInterface : Bool
  superClass : Option String
  interfaces : List String
  instFields : List FieldInfo
  instMethods : List Method
  staticMethods : List Method
  deriving DecidableEq, Repr

/-- Embeds `Class::lookup_instance_method` (class.rs): the local map only. -/
def Class.lookupInstanceMethod (c : Class) (sig : MethodSignature) : Option Method :=
  c.instMethods.find? (fun m => m.signature == sig)

/-- Embeds `Class::lookup_static_method` (class.rs): the local map only. -/
def Class.lookupStaticMethod (c : Class) (sig : MethodSignature) : Option Method :=
  c.staticMethods.find? (fun m => m.signature == sig)

/-- The method area's class registry (`MethodArea::classes`), with the
`HashMap` represented as an association list keyed by class name. -/
def Registry := List Class

/-- Registry lookup (`self.classes.get(name)`). -/
def lookupClass (reg : Registry) (name : String) : Option Class :=
  reg.find? (fun c => c.name == name)

/-- Rust `HashSet<Rc<Class>>::insert` where `Class` hashes and compares by
name (class.rs `impl PartialEq for Class`): adds the class unless one with
the same name is present. -/
def insertClassByName (l : List Class) (c : Class) : List Class :=
  if l.any (fun d => d.name == c.name) then l else l ++ [c]

/-- Embeds `MethodArea::collect_all_superclasses` (method_area.rs).  The
Rust recursion is given fuel; `none` covers both the `Err` of an unresolved
class and fuel exhaustion.  Note the loop bodies insert only the elements of
the recursive results (`for sc in scs { sc_set.insert(sc); }`) — never the
visited superclass or superinterface itself. -/
def collectAllSuperclasses : Nat → Registry → String → Option (List Class)
  | 0, _, _ => none
  | fuel + 1, reg, name => do
    let c ← lookupClass reg name
    let fromSuper ← match c.superClass with
      | some scName => collectAllSuperclasses fuel reg scName
      | none => pure []
    let acc := fromSuper.foldl insertClassByName []
    c.interfaces.foldlM (fun acc ifName => do
      let scs ← collectAllSuperclasses fuel reg ifName
      pure (scs.foldl insertClassByName acc)) acc

/-! ## Heap objects (src/vm/heap.rs, `Object` and `MutValue::default_of_type`) -/

/-- Embeds `MutValue::default_of_type` (value.rs): default value from the
leading character of a field descriptor.  `none` is the panic on an empty
descriptor or unknown leading character. -/
def MutValue.defaultOfType (desc : String) : Option Value :=
  match desc.data with
  | [] => none
  | ch :: _ =>
    match ch with
    | 'B' => some (Value.byte 0)
    | 'C' => some (Value.char 0)
    | 'D' => some (Value.double ())
    | 'F' => some (Value.float ())
    | 'I' => some (Value.int 0)
    | 'J' => some (Value.long 0)
    | 'L' => some (Value.reference 0)
    | 'S' => some (Value.short 0)
    | 'Z' => some (Value.int 0)
    | '[' => some (Value.reference 0)
    | _ => none

/-- Instance-field identifier (heap.rs `InstanceFieldIdent`): the declaring
class name paired with the field name. -/
def InstanceFieldIdent := String × String
deriving instance DecidableEq, Repr for InstanceFieldIdent

/-- Heap object (heap.rs `Object`): runtime class name and the field map,
with the `HashMap<InstanceFieldIdent, MutValue>` represented as an
association list. -/
structure Object where
  className : String
  fields : List (InstanceFieldIdent × Value)
  deriving DecidableEq, Repr

/-- `HashMap::insert` on the field map: overwrite the entry with an equal
key, or append. -/
def insertField (l : List (InstanceFieldIdent × Value)) (k : InstanceFieldIdent)
    (v : Value) : List (InstanceFieldIdent × Value) :=
  if l.any (fun p => p.fst == k) then
    l.map (fun p => if p.fst == k then (k, v) else p)
  else l ++ [(k, v)]

/-- Embeds `Object::new` (heap.rs): collect all superclasses (the `unwrap`
panic and fuel exhaustion are `none`), append the base class, and install a
default-valued entry for every instance field keyed by
`(declaring class name, field name)`. -/
def Object.new (fuel : Nat) (reg : Registry) (baseCls : Class) : Option Object := do
  let classes ← collectAllSuperclasses fuel reg baseCls.name
  let classes := classes ++ [baseCls]
  let fields ← classes.foldlM (fun acc cls =>
    cls.instFields.foldlM (fun acc2 f => do
      let fv ← MutValue.defaultOfType f.descriptor
      pure (insertField acc2 (cls.name, f.name) fv)) acc) []
  pure { className := baseCls.name, fields := fields }

/-- Embeds `Object::get_field` (heap.rs): lookup by the
`(declaring class name, field name)` pair. -/
def Object.getField (o : Object) (clsName fldName : String) : Option Value :=
  (o.fields.find? (fun p => p.fst == (clsName, fldName))).map (fun p => p.snd)

/-! ## Resolved constant-pool entries and the `getfield`/`putfield` handlers
(src/vm/class.rs `RunTimeCPInfo`, src/vm/instruction.rs) -/

/-- Resolved constant-pool entries (class.rs `RunTimeCPInfo`), restricted to
the variants the embedded handlers inspect. -/
inductive RunTimeCPInfo where
  | utf8 (s : String)
  | integer (i : Int)
  | classRef (name : String)
  | fieldref (className name descriptor : String)
  | methodref (className name descriptor : String)
  | unsupported
  deriving DecidableEq, Repr

/-- Embeds the field-name extraction of `instr_getfield`/`instr_putfield`
(instruction.rs): the handler destructures `CPInfo::Fieldref { name, .. }`,
cloning only `name` and discarding the owner class name, and fails on any
other entry kind.  The returned string is the sole field-identifying datum
the handler passes to the object lookup. -/
def instrGetfieldFieldName (cp : RunTimeCPInfo) : RustOutcome String :=
  match cp with
  | RunTimeCPInfo.fieldref _ name _ => RustOutcome.ok name
  | _ => RustOutcome.err "invalid fieldref"

/-! ## Method selection (src/vm/method_area.rs) -/

/-- One level step of the maximally-specific super-interface search
(method_area.rs, the `loop` of
`find_maximally_specific_superinterface_method`).  `seen` is the
`seen_ifaces` set, `ifaces` the current frontier.  The Rust
`HashSet::insert` returns `true` when the name was NOT yet present; the
source binds that result to `seen` and keeps the interface only in the
`else` (already-present) branch.  An unresolved super-interface is silently
skipped (`filter_map` over `self.classes.get`).  The loop gets fuel; `none`
is exhaustion. -/
def msLoop : Nat → Registry → List String → List Class → MethodSignature →
    Option (RustOutcome Method)
  | 0, _, _, _, _ => none
  | fuel + 1, reg, seen, ifaces, sig =>
    let candidates := ifaces.filterMap (fun iface =>
      (iface.lookupInstanceMethod sig).filter
        (fun meth => meth.accessFlags.isInterfaceDefault))
    match candidates with
    | [c] => some (RustOutcome.ok c)
    | _ :: _ :: _ =>
      some (RustOutcome.err "maximally-specific superinterface method not found")
    | [] =>
      let step := ifaces.foldl (fun (acc : List String × List Class) iface =>
        iface.interfaces.foldl (fun (acc2 : List String × List Class) ifName =>
          if acc2.fst.contains ifName then
            -- insert returned false: the name was already seen; the source
            -- then looks the class up and keeps it
            match lookupClass reg ifName with
            | some c => (acc2.fst, acc2.snd ++ [c])
            | none => acc2
          else
            -- insert returned true: the name is new; the source drops it
            (acc2.fst ++ [ifName], acc2.snd)) acc) (seen, [])
      if step.snd.isEmpty then
        some (RustOutcome.err "maximally-specific superinterface method not found")
      else msLoop fuel reg step.fst step.snd sig

/-- Embeds `MethodArea::find_maximally_specific_superinterface_method`
(method_area.rs).  The initial frontier is the base class's direct
super-interfaces, all marked seen; an unresolved direct super-interface hits
the `expect` (`crash`). -/
def findMaxSpecificSuperinterfaceMethod (fuel : Nat) (reg : Registry) (base : Class)
    (sig : MethodSignature) : Option (RustOutcome Method) :=
  match base.interfaces.mapM (lookupClass reg) with
  | none => some RustOutcome.crash
  | some ifaces => msLoop fuel reg base.interfaces ifaces sig

/-- The superclass walk of `MethodArea::select_instance_method`
(method_area.rs, step 2).  Faithful to the source: the body looks up
`runtime_class.lookup_instance_method(sig)` on every iteration — the walked
class `cls` only steers when the loop ends — and an unresolved superclass
hits the `expect` (`crash`).  `some (ok none)` is the `break`. -/
def selectLoop : Nat → Registry → Class → Class → MethodSignature →
    Option (RustOutcome (Option Method))
  | 0, _, _, _, _ => none
  | fuel + 1, reg, runtimeClass, cls, sig =>
    match runtimeClass.lookupInstanceMethod sig with
    | some meth => some (RustOutcome.ok (some meth))
    | none =>
      match cls.superClass with
      | some scName =>
        match lookupClass reg scName with
        | some sc => selectLoop fuel reg runtimeClass sc sig
        | none => some RustOutcome.crash
      | none => some (RustOutcome.ok none)

/-- Embeds `MethodArea::select_instance_method` (method_area.rs): a private
resolved method is selected verbatim; otherwise the superclass walk, falling
back to the maximally-specific super-interface search on the runtime
class. -/
def selectInstanceMethod (fuel : Nat) (reg : Registry) (runtimeClass : Class)
    (resolvedMeth : Method) : Option (RustOutcome Method) :=
  if resolvedMeth.accessFlags.isPrivate then some (RustOutcome.ok resolvedMeth)
  else
    match selectLoop fuel reg runtimeClass runtimeClass resolvedMeth.signature with
    | none => none
    | some (RustOutcome.ok (some meth)) => some (RustOutcome.ok meth)
    | some (RustOutcome.ok none) =>
      findMaxSpecificSuperinterfaceMethod fuel reg runtimeClass resolvedMeth.signature
    | some (RustOutcome.err e) => some (RustOutcome.err e)
    | some RustOutcome.crash => some RustOutcome.crash

/-! ## Class initialization (src/vm/class.rs, `Class::initialize`) -/

/-- Class initialization state (class.rs `ClassInitState`). -/
inductive ClassInitState where
  | beforeInit
  | inProgress
  | succeeded
  | failed
  deriving DecidableEq, Repr

/-- All per-class `init_state` cells, as one explicit state keyed by class
name (class identity is name equality). -/
def InitStateMap := String → ClassInitState

/-- Write one class's init-state cell. -/
def setState (σ : InitStateMap) (name : String) (s : ClassInitState) : InitStateMap :=
  fun x => if x = name then s else σ x

/-- The signature of `<clinit>:()V` (thread.rs `exec_class_initialization`). -/
def clinitSignature : MethodSignature := { name := "<clinit>", descriptor := "()V" }

/-- Embeds `Class::superclasses_to_be_initialized` (class.rs): the resolved
superclass (if present) followed by exactly the direct super-interfaces that
declare at least one non-abstract instance method.  `none` is the propagated
`resolve_class` error for a class missing from the registry. -/
def superclassesToBeInitialized (reg : Registry) (c : Class) : Option (List Class) := do
  let init ← match c.superClass with
    | some scName => (lookupClass reg scName).map (fun sc => [sc])
    | none => pure []
  c.interfaces.foldlM (fun acc ifName => do
    let iface ← lookupClass reg ifName
    if iface.instMethods.any (fun m => !m.accessFlags.isAbstract) then
      pure (acc ++ [iface])
    else pure acc) init

/-- Observable initialization events: `enter c` marks an `initialize` call
that found `c` in `BeforeInit` and actually ran initialization; `clinit c`
marks execution of `c`'s declared `<clinit>`. -/
inductive InitEvent where
  | enter (name : String)
  | clinit (name : String)
  deriving DecidableEq, Repr

/-- Sequentially runs `f` (an `initialize` at smaller fuel) over a list of
classes, propagating the first error (the `?` in
`for sc in ... { sc.initialize(...)? }`). -/
def initSeqWith
    (f : InitStateMap → Class → Option (RustOutcome Unit × InitStateMap × List InitEvent)) :
    InitStateMap → List Class → Option (RustOutcome Unit × InitStateMap × List InitEvent)
  | σ, [] => some (RustOutcome.ok (), σ, [])
  | σ, sc :: rest =>
    match f σ sc with
    | none => none
    | some (RustOutcome.ok _, σ1, tr1) =>
      match initSeqWith f σ1 rest with
      | none => none
      | some (r, σ2, tr2) => some (r, σ2, tr1 ++ tr2)
    | some (r, σ1, tr1) => some (r, σ1, tr1)

/-- Embeds `Class::initialize` (class.rs).  `clinitOk` abstracts
`Thread::exec_class_initialization` running the interpreter on the class's
`<clinit>` body: it tells whether that execution succeeds; whether a
`<clinit>` is declared at all is read off `staticMethods`, mirroring the
`lookup_static_method` in thread.rs.  The recursion over supertypes gets
fuel (`none` = exhaustion).  Returns the Rust result together with the
final init-state map and the event trace. -/
def initClass : Nat → Registry → (String → Bool) → InitStateMap → Class →
    Option (RustOutcome Unit × InitStateMap × List InitEvent)
  | 0, _, _, _, _ => none
  | fuel + 1, reg, clinitOk, σ, c =>
    match σ c.name with
    | ClassInitState.beforeInit =>
      let σ1 := setState σ c.name ClassInitState.inProgress
      let recStep :=
        if c.isInterface then some (RustOutcome.ok (), σ1, ([] : List InitEvent))
        else
          match superclassesToBeInitialized reg c with
          | none => some (RustOutcome.err "failed to resolve supertypes", σ1, [])
          | some scs => initSeqWith (initClass fuel reg clinitOk) σ1 scs
      match recStep with
      | none => none
      | some (RustOutcome.ok _, σ2, tr) =>
        if (c.lookupStaticMethod clinitSignature).isSome then
          if clinitOk c.name then
            some (RustOutcome.ok (), setState σ2 c.name ClassInitState.succeeded,
              InitEvent.enter c.name :: (tr ++ [InitEvent.clinit c.name]))
          else
            some (RustOutcome.err "failed to initialize class",
              setState σ2 c.name ClassInitState.failed,
              InitEvent.enter c.name :: (tr ++ [InitEvent.clinit c.name]))
        else
          some (RustOutcome.ok (), setState σ2 c.name ClassInitState.succeeded,
            InitEvent.enter c.name :: tr)
      | some (r, σ2, tr) => some (r, σ2, InitEvent.enter c.name :: tr)
    | _ => some (RustOutcome.ok (), σ, [])

/-! ## Arrays, the heap, and the store/arithmetic handlers
(src/vm/heap.rs, src/vm/instruction.rs) -/

/-- Typed arrays (heap.rs `JavaArray` implementors), restricted to the
element kinds the claims exercise: reference arrays (`MutValue` slots), the
`i32` primitive array, and the packed boolean array. -/
inductive JavaArray where
  | refArr (data : List Value) (l : Nat) (desc : String)
  | intArr (data : List Int) (l : Nat)
  | boolArr (a : JavaBooleanArray)
  deriving DecidableEq, Repr

/-- Embeds the `put` of each array kind (heap.rs).
`JavaReferenceArray::put` is `self.data.get(idx).inspect(|fv| fv.put(v))` —
out of bounds it touches nothing and returns normally.
`JavaPrimitiveArray::put` destructures the value (`unreachable!` otherwise)
and writes `self.data[idx] = n`, which panics out of bounds.
`JavaBooleanArray::put` is embedded above. -/
def JavaArray.put (arr : JavaArray) (idx : Nat) (v : Value) : RustOutcome JavaArray :=
  match arr with
  | JavaArray.refArr data l desc =>
    RustOutcome.ok (JavaArray.refArr (if idx < data.length then data.set idx v else data) l desc)
  | JavaArray.intArr data l =>
    match v with
    | Value.int n =>
      if idx < data.length then RustOutcome.ok (JavaArray.intArr (data.set idx n) l)
      else RustOutcome.crash
    | _ => RustOutcome.crash
  | JavaArray.boolArr a =>
    match a.put idx v with
    | RustOutcome.ok a' => RustOutcome.ok (JavaArray.boolArr a')
    | RustOutcome.err e => RustOutcome.err e
    | RustOutcome.crash => RustOutcome.crash

/-- Heap cells (heap.rs `RefValue`). -/
inductive RefValue where
  | object (o : Object)
  | array (arr : JavaArray)
  | null
  deriving DecidableEq, Repr

/-- The heap (heap.rs `Heap`): a vector of `RefValue` addressed by index;
index 0 is the null sentinel. -/
def Heap := List RefValue

/-- Rust `idx as usize` on an `i32` index: sign-extend and reinterpret,
i.e. reduce modulo `2^64`. -/
def intToUsize (n : Int) : Nat := (n % (2 ^ 64)).toNat

/-- Embeds the `aastore` instantiation of the `instr_astore!` macro
(instruction.rs).  The operand stack is a list with the top at the head;
pops mirror the `let-else` chain of the macro: a pop from an empty stack is
the `expect("stack underflow")` panic, a wrong tag is the returned `Err`.
The mutation through `heap.get(r)` is explicit: the handler returns the
updated stack and heap. -/
def instrAastore (stack : List Value) (heap : Heap) :
    RustOutcome (List Value × Heap) :=
  match stack with
  | [] => RustOutcome.crash
  | v :: stack1 =>
    match v with
    | Value.reference _ =>
      match stack1 with
      | [] => RustOutcome.crash
      | vi :: stack2 =>
        match vi with
        | Value.int idx =>
          match stack2 with
          | [] => RustOutcome.crash
          | vr :: stack3 =>
            match vr with
            | Value.reference r =>
              match List.get? heap r with
              | none => RustOutcome.err "referent not found on heap"
              | some (RefValue.array arr) =>
                match arr.put (intToUsize idx) v with
                | RustOutcome.ok arr' =>
                  RustOutcome.ok (stack3, heap.set r (RefValue.array arr'))
                | RustOutcome.err e => RustOutcome.err e
                | RustOutcome.crash => RustOutcome.crash
              | some _ => RustOutcome.err "referent is not an array"
            | _ => RustOutcome.err "operand is not a reference value"
        | _ => RustOutcome.err "index is not an int"
    | _ => RustOutcome.err "the value to store does not have type reference"

/-- Embeds the `iastore` instantiation of the `instr_astore!` macro
(instruction.rs): identical to `instrAastore` except that the value popped
first must be an `Int`. -/
def instrIastore (stack : List Value) (heap : Heap) :
    RustOutcome (List Value × Heap) :=
  match stack with
  | [] => RustOutcome.crash
  | v :: stack1 =>
    match v with
    | Value.int _ =>
      match stack1 with
      | [] => RustOutcome.crash
      | vi :: stack2 =>
        match vi with
        | Value.int idx =>
          match stack2 with
          | [] => RustOutcome.crash
          | vr :: stack3 =>
            match vr with
            | Value.reference r =>
              match List.get? heap r with
              | none => RustOutcome.err "referent not found on heap"
              | some (RefValue.array arr) =>
                match arr.put (intToUsize idx) v with
                | RustOutcome.ok arr' =>
                  RustOutcome.ok (stack3, heap.set r (RefValue.array arr'))
                | RustOutcome.err e => RustOutcome.err e
                | RustOutcome.crash => RustOutcome.crash
              | some _ => RustOutcome.err "referent is not an array"
            | _ => RustOutcome.err "operand is not a reference value"
        | _ => RustOutcome.err "index is not an int"
    | _ => RustOutcome.err "the value to store does not have type int"

/-! ## Integer division and remainder (src/vm/instruction.rs,
`instr_binary_op!` instantiated at `/` and `%`) -/

/-- Rust `i32` division `lhs / rhs`: panics on a zero divisor and on the
`i32::MIN / -1` overflow, otherwise truncated division. -/
def i32Div (lhs rhs : Int) : Option Int :=
  if rhs = 0 then none
  else if lhs = -(2 ^ 31) ∧ rhs = -1 then none
  else some (Int.tdiv lhs rhs)

/-- Rust `i32` remainder `lhs % rhs`: panics on a zero divisor and on the
`i32::MIN % -1` overflow, otherwise the truncated remainder. -/
def i32Rem (lhs rhs : Int) : Option Int :=
  if rhs = 0 then none
  else if lhs = -(2 ^ 31) ∧ rhs = -1 then none
  else some (Int.tmod lhs rhs)

/-- Rust `i64` division. -/
def i64Div (lhs rhs : Int) : Option Int :=
  if rhs = 0 then none
  else if lhs = -(2 ^ 63) ∧ rhs = -1 then none
  else some (Int.tdiv lhs rhs)

/-- Rust `i64` remainder. -/
def i64Rem (lhs rhs : Int) : Option Int :=
  if rhs = 0 then none
  else if lhs = -(2 ^ 63) ∧ rhs = -1 then none
  else some (Int.tmod lhs rhs)

/-- Embeds the `instr_binary_op!` macro shape (instruction.rs) for an `Int`
operation: pop `rhs` then `lhs` (empty stack is the `expect` panic, a wrong
tag the returned `Err`), apply the Rust operator — whose own panic (division
by zero / overflow) is the `crash` outcome — and push the result. -/
def instrBinaryIntOp (op : Int → Int → Option Int) (stack : List Value) :
    RustOutcome (List Value) :=
  match stack with
  | [] => RustOutcome.crash
  | v1 :: stack1 =>
    match v1 with
    | Value.int rhs =>
      match stack1 with
      | [] => RustOutcome.crash
      | v2 :: stack2 =>
        match v2 with
        | Value.int lhs =>
          match op lhs rhs with
          | none => RustOutcome.crash
          | some res => RustOutcome.ok (Value.int res :: stack2)
        | _ => RustOutcome.err "target operand is not type int"
    | _ => RustOutcome.err "target operand is not type int"

/-- Same shape for a `Long` operation. -/
def instrBinaryLongOp (op : Int → Int → Option Int) (stack : List Value) :
    RustOutcome (List Value) :=
  match stack with
  | [] => RustOutcome.crash
  | v1 :: stack1 =>
    match v1 with
    | Value.long rhs =>
      match stack1 with
      | [] => RustOutcome.crash
      | v2 :: stack2 =>
        match v2 with
        | Value.long lhs =>
          match op lhs rhs with
          | none => RustOutcome.crash
          | some res => RustOutcome.ok (Value.long res :: stack2)
        | _ => RustOutcome.err "target operand is not type long"
    | _ => RustOutcome.err "target operand is not type long"

/-- `instr_idiv` (instruction.rs, `instr_binary_op!(instr_idiv, /, Value::Int, "int")`). -/
def instrIdiv (stack : List Value) : RustOutcome (List Value) :=
  instrBinaryIntOp i32Div stack

/-- `instr_irem`. -/
def instrIrem (stack : List Value) : RustOutcome (List Value) :=
  instrBinaryIntOp i32Rem stack

/-- `instr_ldiv`. -/
def instrLdiv (stack : List Value) : RustOutcome (List Value) :=
  instrBinaryLongOp i64Div stack

/-- `instr_lrem`. -/
def instrLrem (stack : List Value) : RustOutcome (List Value) :=
  instrBinaryLongOp i64Rem stack

/-- The per-call transition relation the specification allows for one
init-state cell: `BeforeInit → InProgress → Succeeded | Failed`, with
`Succeeded` and `Failed` terminal (a call may carry a cell any number of
steps along the chain, including zero). -/
def stateAdvances (a b : ClassInitState) : Bool :=
  match a, b with
  | ClassInitState.beforeInit, _ => true
  | ClassInitState.inProgress, ClassInitState.inProgress => true
  | ClassInitState.inProgress, ClassInitState.succeeded => true
  | ClassInitState.inProgress, ClassInitState.failed => true
  | ClassInitState.succeeded, ClassInitState.succeeded => true
  | ClassInitState.failed, ClassInitState.failed => true
  | _, _ => false

/-! ## Concrete inputs used by counterexamples and witnesses -/

/-- Class `A` with one instance field `x : int` and no supertypes. -/
def clsA1 : Class :=
  { name := "A", isInterface := false, superClass := none, interfaces := []
    instFields := [{ name := "x", descriptor := "I" }]
    instMethods := [], staticMethods := [] }

/-- Class `B extends A` with one instance field `y : int`. -/
def clsB1 : Class :=
  { name := "B", isInterface := false, superClass := some "A", interfaces := []
    instFields := [{ name := "y", descriptor := "I" }]
    instMethods := [], staticMethods := [] }

/-- Registry for the allocation counterexample. -/
def regAB : Registry := [clsA1, clsB1]

/-- Public, non-private instance method `id:()I`. -/
def methId : Method :=
  { accessFlags := { isPublic := true, isPrivate := false, isStatic := false, isAbstract := false }
    signature := { name := "id", descriptor := "()I" } }

/-- Class `P` declaring `id:()I`. -/
def clsP : Class :=
  { name := "P", isInterface := false, superClass := none, interfaces := []
    instFields := [], instMethods := [methId], staticMethods := [] }

/-- Class `Q extends P` declaring nothing. -/
def clsQ : Class :=
  { name := "Q", isInterface := false, superClass := some "P", interfaces := []
    instFields := [], instMethods := [], staticMethods := [] }

/-- Registry for the method-selection counterexample. -/
def regPQ : Registry := [clsP, clsQ]

/-- Default (public, neither private nor static nor abstract) interface
method `m:()I`. -/
def methM : Method :=
  { accessFlags := { isPublic := true, isPrivate := false, isStatic := false, isAbstract := false }
    signature := { name := "m", descriptor := "()I" } }

/-- Interface `J` declaring the default method `m:()I`. -/
def ifaceJ : Class :=
  { name := "J", isInterface := true, superClass := none, interfaces := []
    instFields := [], instMethods := [methM], staticMethods := [] }

/-- Interface `I extends J` declaring nothing. -/
def ifaceI : Class :=
  { name := "I", isInterface := true, superClass := none, interfaces := ["J"]
    instFields := [], instMethods := [], staticMethods := [] }

/-- Class `C implements I`. -/
def clsC3 : Class :=
  { name := "C", isInterface := false, superClass := none, interfaces := ["I"]
    instFields := [], instMethods := [], staticMethods := [] }

/-- Registry for the superinterface-search counterexample. -/
def regCIJ : Registry := [ifaceJ, ifaceI, clsC3]

/-- The `<clinit>` method record. -/
def methClinit : Method :=
  { accessFlags := { isPublic := false, isPrivate := false, isStatic := true, isAbstract := false }
    signature := clinitSignature }

/-- Class `A` with a `<clinit>` (whose execution the oracle will fail). -/
def clsAF : Class :=
  { name := "A", isInterface := false, superClass := none, interfaces := []
    instFields := [], instMethods := [], staticMethods := [methClinit] }

/-- Class `B extends A` with no `<clinit>`. -/
def clsBF : Class :=
  { name := "B", isInterface := false, superClass := some "A", interfaces := []
    instFields := [], instMethods := [], staticMethods := [] }

/-- Registry for the failed-initialization counterexamples. -/
def regFail : Registry := [clsAF, clsBF]

/-- Oracle under which every `<clinit>` of class `A` fails and all others
succeed. -/
def orcFailA : String → Bool := fun name => !(name == "A")

/-- All classes before initialization. -/
def sigma0 : InitStateMap := fun _ => ClassInitState.beforeInit

/-- State with `A` already failed and everything else untouched. -/
def sigmaAFailed : InitStateMap :=
  fun x => if x = "A" then ClassInitState.failed else ClassInitState.beforeInit

/-- Class `S` with a `<clinit>` and no supertypes (C9 witness). -/
def clsS9 : Class :=
  { name := "S", isInterface := false, superClass := none, interfaces := []
    instFields := [], instMethods := [], staticMethods := [methClinit] }

/-- Interface `K` with a default method and a `<clinit>` (C9 witness). -/
def ifaceK9 : Class :=
  { name := "K", isInterface := true, superClass := none, interfaces := []
    instFields := [], instMethods := [methM], staticMethods := [methClinit] }

/-- Abstract instance method `n:()I`. -/
def methAbstractN : Method :=
  { accessFlags := { isPublic := true, isPrivate := false, isStatic := false, isAbstract := true }
    signature := { name := "n", descriptor := "()I" } }

/-- Abstract-only interface `L` with a `<clinit>` (C9 witness): its
initialization must not be triggered. -/
def ifaceL9 : Class :=
  { name := "L", isInterface := true, superClass := none, interfaces := []
    instFields := []
    instMethods := [methAbstractN]
    staticMethods := [methClinit] }

/-- Class `D extends S implements K, L` with a `<clinit>` (C9 witness). -/
def clsD9 : Class :=
  { name := "D", isInterface := false, superClass := some "S", interfaces := ["K", "L"]
    instFields := [], instMethods := [], staticMethods := [methClinit] }

/-- Registry for the C9 witness. -/
def regC9 : Registry := [clsS9, ifaceK9, ifaceL9, clsD9]

/-- Oracle under which every `<clinit>` succeeds. -/
def orcAllOk : String → Bool := fun _ => true

/-- A heap holding one reference array of length 1 at index 1. -/
def heapRefArr : Heap :=
  [RefValue.null, RefValue.array (JavaArray.refArr [Value.reference 0] 1 "[Ljava/lang/Object;")]

/-- A heap holding one int array of length 1 at index 1. -/
def heapIntArr : Heap :=
  [RefValue.null, RefValue.array (JavaArray.intArr [0] 1)]

/-! ### Supporting bit-arithmetic lemmas -/

/-- Extracting a bit by shift-and-mask agrees with `Nat.testBit`. -/
lemma shift_and_one_eq (b s : Nat) :
    (b >>> s) &&& 1 = if b.testBit s then 1 else 0 := by
  rw [Nat.and_one_is_mod, Nat.testBit_to_div_mod, Nat.shiftRight_eq_div_pow]
  rcases Nat.mod_two_eq_zero_or_one (b / 2 ^ s) with h | h <;> simp [h]

/-- Bitwise and with `1` on `Int` (the Rust `n & 1` on `i32`) is the
nonnegative remainder mod 2. -/
lemma int_land_one (n : Int) : Int.land n 1 = n % 2 := by
  have hld : ∀ m : Nat, Nat.ldiff 1 m = if m % 2 = 1 then 0 else 1 := by
    intro m
    unfold Nat.ldiff
    rw [Nat.bitwise]
    rcases Nat.eq_zero_or_pos m with hm | hm
    · simp [hm]
    · have h1 : Nat.bitwise (fun a b => a && !b) 0 (m / 2) = 0 := by
        rw [Nat.bitwise]; simp
      simp only [hm.ne', if_false]
      simp only [show (1 : Nat) ≠ 0 by omega, if_false]
      simp [h1]
      rcases Nat.mod_two_eq_zero_or_one m with h | h <;> simp [h]
  cases n with
  | ofNat m =>
    have h1 : Int.land (Int.ofNat m) (Int.ofNat 1) = Int.ofNat (m &&& 1) := rfl
    rw [show (1 : Int) = Int.ofNat 1 from rfl, h1, Nat.and_one_is_mod]
    have h2 : (Int.ofNat m) = (m : Int) := rfl
    rw [h2, show Int.ofNat (m % 2) = ((m % 2 : Nat) : Int) from rfl]
    push_cast
    omega
  | negSucc m =>
    have h1 : Int.land (Int.negSucc m) (Int.ofNat 1) = Int.ofNat (Nat.ldiff 1 m) := rfl
    rw [show (1 : Int) = Int.ofNat 1 from rfl, h1, hld m, Int.negSucc_eq]
    rcases Nat.mod_two_eq_zero_or_one m with h | h <;> rw [h] <;> simp <;> omega

/-- Writing one list entry leaves `getD` at the written index equal to the new
value. -/
lemma getD_set_self (l : List Nat) (i b : Nat) (h : i < l.length) :
    (l.set i b).getD i 0 = b := by
  rw [List.getD_eq_getElem?_getD, List.getElem?_set_self (by simpa using h)]
  rfl

/-- Writing one list entry leaves `getD` at other indices unchanged. -/
lemma getD_set_ne (l : List Nat) (i j b : Nat) (h : i ≠ j) :
    (l.set i b).getD j 0 = l.getD j 0 := by
  simp [List.getD_eq_getElem?_getD, List.getElem?_set_ne h]

/-- Setting bit `s` makes `testBit` at `s` true. -/
lemma testBit_or_mask_self (b s : Nat) : (b ||| 1 <<< s).testBit s = true := by
  rw [Nat.shiftLeft_eq, one_mul, Nat.testBit_lor, Nat.testBit_two_pow]
  simp

/-- Clearing bit `s` through the 8-bit complement mask makes `testBit` at `s`
false (for the bit positions `s < 8` that arise from the packed encoding). -/
lemma testBit_and_notmask_self (b s : Nat) (hs : s < 8) :
    (b &&& (255 ^^^ 1 <<< s)).testBit s = false := by
  rw [Nat.shiftLeft_eq, one_mul, Nat.testBit_land, Nat.testBit_xor,
    show (255 : Nat) = 2 ^ 8 - 1 by norm_num, Nat.testBit_two_pow_sub_one,
    Nat.testBit_two_pow]
  simp [hs]

/-- Setting bit `s` leaves `testBit` at `s' ≠ s` unchanged. -/
lemma testBit_or_mask_other (b s s' : Nat) (h : s ≠ s') :
    (b ||| 1 <<< s).testBit s' = b.testBit s' := by
  rw [Nat.shiftLeft_eq, one_mul, Nat.testBit_lor, Nat.testBit_two_pow]
  simp [h]

/-- Clearing bit `s` through the 8-bit complement mask leaves `testBit` at
`s' ≠ s` (with `s' < 8`) unchanged. -/
lemma testBit_and_notmask_other (b s s' : Nat) (h : s ≠ s') (hs' : s' < 8) :
    (b &&& (255 ^^^ 1 <<< s)).testBit s' = b.testBit s' := by
  rw [Nat.shiftLeft_eq, one_mul, Nat.testBit_land, Nat.testBit_xor,
    show (255 : Nat) = 2 ^ 8 - 1 by norm_num, Nat.testBit_two_pow_sub_one,
    Nat.testBit_two_pow]
  simp [h, hs']

/-- Unfolding equation for `JavaBooleanArray.put` when the byte index is in
bounds. -/
lemma JavaBooleanArray.put_eq (a : JavaBooleanArray) (idx : Nat) (n : Int)
    (h : idx / 8 < a.data.length) :
    a.put idx (Value.int n) = RustOutcome.ok
      { data := a.data.set (idx / 8)
          (if Int.land n 1 == 1 then
            a.data.getD (idx / 8) 0 ||| 1 <<< (7 - idx % 8)
          else
            a.data.getD (idx / 8) 0 &&& (255 ^^^ 1 <<< (7 - idx % 8)))
        l := a.l } := by
  simp only [JavaBooleanArray.put, if_pos h]

/-- Unfolding equation for `JavaBooleanArray.get` at a valid index, phrased
through `Nat.testBit`. -/
lemma JavaBooleanArray.get_eq (a : JavaBooleanArray) (idx : Nat) (h : idx < a.l) :
    a.get idx = some (Value.int (Int.ofNat
      (if (a.data.getD (idx / 8) 0).testBit (7 - idx % 8) then 1 else 0))) := by
  simp only [JavaBooleanArray.get, if_neg (not_le.mpr h)]
  rw [shift_and_one_eq]

/-- C10: on a well-formed boolean array, `put` at a valid index `i` with value
`Int n` stores exactly the least-significant bit of `n`: a subsequent `get i`
returns `Int (n & 1)` even when `n` is neither 0 nor 1, and every other valid
index `j ≠ i` reads the same value as before the `put`.  Length and
well-formedness are preserved. -/
theorem boolean_array_put_stores_lsb
    (a : JavaBooleanArray) (i j : Nat) (n : Int)
    (hwf : a.WF) (hi : i < a.l) (hj : j < a.l) (hne : j ≠ i) :
    ∃ a', a.put i (Value.int n) = RustOutcome.ok a' ∧
      a'.get i = some (Value.int (Int.land n 1)) ∧
      a'.get j = a.get j ∧
      a'.l = a.l ∧ a'.WF := by
  have hl0 : a.l ≠ 0 := by omega
  have hib : i / 8 < a.data.length := by
    rw [hwf, if_neg hl0]; omega
  refine ⟨_, a.put_eq i n hib, ?_, ?_, rfl, ?_⟩
  · -- get i returns the least-significant bit of n
    simp only [JavaBooleanArray.get, if_neg (not_le.mpr hi)]
    rw [getD_set_self _ _ _ hib, shift_and_one_eq]
    rcases h1 : (Int.land n 1 == 1) with _ | _
    · have hland : Int.land n 1 = 0 := by
        have h2 : ¬ Int.land n 1 = 1 := by
          intro hc; rw [hc] at h1; simp at h1
        rw [int_land_one] at h2 ⊢
        omega
      rw [if_neg Bool.false_ne_true, testBit_and_notmask_self _ _ (by omega)]
      simp [hland]
    · have hland : Int.land n 1 = 1 := beq_iff_eq.mp h1
      rw [if_pos (rfl : (true : Bool) = true), testBit_or_mask_self]
      simp [hland]
  · -- every other valid index is unchanged
    simp only [JavaBooleanArray.get, if_neg (not_le.mpr hj)]
    rw [shift_and_one_eq, shift_and_one_eq]
    by_cases hbyte : j / 8 = i / 8
    · have hmod : j % 8 ≠ i % 8 := by omega
      have hss : 7 - i % 8 ≠ 7 - j % 8 := by omega
      rw [hbyte, getD_set_self _ _ _ hib]
      rcases h1 : (Int.land n 1 == 1) with _ | _
      · rw [if_neg Bool.false_ne_true,
          testBit_and_notmask_other _ _ _ hss (by omega)]
      · rw [if_pos (rfl : (true : Bool) = true), testBit_or_mask_other _ _ _ hss]
    · rw [getD_set_ne _ _ _ _ (fun h => hbyte h.symm)]
  · -- well-formedness is preserved
    show JavaBooleanArray.WF _
    unfold JavaBooleanArray.WF
    simpa using hwf

/-- Witness instantiating C10 at the boolean array of length 2, index 0,
value `Int 3`. -/
theorem boolean_array_put_stores_lsb_witness :
    ∃ a', (JavaBooleanArray.new 2).put 0 (Value.int 3) = RustOutcome.ok a' ∧
      a'.get 0 = some (Value.int (Int.land 3 1)) ∧
      a'.get 1 = (JavaBooleanArray.new 2).get 1 ∧
      a'.l = (JavaBooleanArray.new 2).l ∧ a'.WF :=
  boolean_array_put_stores_lsb (JavaBooleanArray.new 2) 0 1 3
    rfl (by decide) (by decide) (by decide)

/-- C7: a zero divisor popped by `idiv`, `ldiv`, `irem` or `lrem` hits the
built-in Rust division/remainder, whose zero-divisor panic aborts the
process (`crash`); the handler never returns a `DivisionByZero` error for
the dispatch loop to propagate. -/
theorem idiv_zero_divisor_panics_not_err (n : Int) (rest : List Value) :
    instrIdiv (Value.int 0 :: Value.int n :: rest) = RustOutcome.crash ∧
    instrIrem (Value.int 0 :: Value.int n :: rest) = RustOutcome.crash ∧
    instrLdiv (Value.long 0 :: Value.long n :: rest) = RustOutcome.crash ∧
    instrLrem (Value.long 0 :: Value.long n :: rest) = RustOutcome.crash :=
  ⟨rfl, rfl, rfl, rfl⟩

/-- C8: an out-of-bounds `aastore` on a reference array returns `Ok` and
leaves the array (and whole heap) unchanged — `JavaReferenceArray::put`
silently ignores the write — while an out-of-bounds `iastore` on an int
array panics; neither surfaces an `Err` from the handler. -/
theorem astore_out_of_bounds_not_err :
    instrAastore [Value.reference 0, Value.int 1, Value.reference 1] heapRefArr =
      RustOutcome.ok ([], heapRefArr) ∧
    instrIastore [Value.int 5, Value.int 1, Value.reference 1] heapIntArr =
      RustOutcome.crash :=
  ⟨rfl, rfl⟩

/-- C6: `instr_getfield`/`instr_putfield` destructure only the field name
out of the resolved `Fieldref` — the owner class name is discarded — so two
`Fieldref`s that differ only in owner class give the handler identical
lookup data; yet the heap's pair-keyed field map (`Object::get_field`)
distinguishes the two slots, and its lookup takes the owner class as an
argument the handler does not supply. -/
theorem getfield_drops_owner_class :
    instrGetfieldFieldName (RunTimeCPInfo.fieldref "A" "x" "I") = RustOutcome.ok "x" ∧
    instrGetfieldFieldName (RunTimeCPInfo.fieldref "B" "x" "I") =
      instrGetfieldFieldName (RunTimeCPInfo.fieldref "A" "x" "I") ∧
    Object.getField
      { className := "B", fields := [(("A", "x"), Value.int 1), (("B", "x"), Value.int 2)] }
      "A" "x" = some (Value.int 1) ∧
    Object.getField
      { className := "B", fields := [(("A", "x"), Value.int 1), (("B", "x"), Value.int 2)] }
      "B" "x" = some (Value.int 2) :=
  ⟨rfl, rfl, rfl, rfl⟩

/-- C2: method selection with runtime class `Q extends P` and resolved
non-private method `P.id:()I`: `P` declares the signature, so the claimed
selection is `P.id`, but the superclass walk re-reads `runtime_class`
instead of the walked class and falls through to the super-interface search,
which fails. -/
theorem select_misses_superclass_method :
    clsP.lookupInstanceMethod methId.signature = some methId ∧
    methId.accessFlags.isPrivate = false ∧
    lookupClass regPQ "P" = some clsP ∧
    clsQ.superClass = some "P" ∧
    selectInstanceMethod 8 regPQ clsQ methId =
      some (RustOutcome.err "maximally-specific superinterface method not found") :=
  ⟨rfl, rfl, rfl, rfl, rfl⟩

/-- C3: the maximally-specific search on `C implements I`, `I extends J`,
where only `J` declares a matching default method: the frontier advance
keeps exactly the already-seen interfaces and drops newly seen ones (the
inverted `HashSet::insert` result), so `J` is never visited and the search
fails instead of returning `J.m`. -/
theorem max_specific_search_drops_new_frontier :
    (lookupClass regCIJ "J").map (fun c => c.lookupInstanceMethod methM.signature) =
      some (some methM) ∧
    methM.accessFlags.isInterfaceDefault = true ∧
    ifaceI.interfaces = ["J"] ∧
    clsC3.interfaces = ["I"] ∧
    findMaxSpecificSuperinterfaceMethod 8 regCIJ clsC3 methM.signature =
      some (RustOutcome.err "maximally-specific superinterface method not found") :=
  ⟨rfl, rfl, rfl, rfl, rfl⟩

/-- The interface fold inside `collect_all_superclasses` keeps an empty
accumulator empty when every recursive call yields the empty list. -/
lemma collect_fold_empty (fuel : Nat) (reg : Registry)
    (IH : ∀ name l, collectAllSuperclasses fuel reg name = some l → l = []) :
    ∀ (ifs : List String) (res : List Class),
      ifs.foldlM (fun acc ifName => do
        let scs ← collectAllSuperclasses fuel reg ifName
        pure (scs.foldl insertClassByName acc)) ([] : List Class) = some res → res = [] := by
  intro ifs
  induction ifs with
  | nil => intro res h; simpa using h.symm
  | cons x xs ih =>
    intro res h
    simp only [List.foldlM] at h
    rcases hx : collectAllSuperclasses fuel reg x with _ | scs
    · rw [hx] at h; simp at h
    · rw [hx] at h
      have hscs := IH x scs hx
      subst hscs
      simpa using ih res h

/-- `MethodArea::collect_all_superclasses` never returns anything: the loop
bodies insert only elements of recursive results, so by induction every
successful call yields the empty set. -/
lemma collectAllSuperclasses_empty :
    ∀ (fuel : Nat) (reg : Registry) (name : String) (l : List Class),
      collectAllSuperclasses fuel reg name = some l → l = [] := by
  intro fuel
  induction fuel with
  | zero => intro reg name l h; simp [collectAllSuperclasses] at h
  | succ fuel ih =>
    intro reg name l h
    simp only [collectAllSuperclasses] at h
    rcases hlk : lookupClass reg name with _ | c
    · rw [hlk] at h; simp at h
    · rw [hlk] at h
      simp only [Option.bind_eq_bind, Option.some_bind] at h
      split at h
      · -- superclass present
        rename_i scName _
        rcases hrec : collectAllSuperclasses fuel reg scName with _ | fromSuper
        · rw [hrec] at h; simp at h
        · rw [hrec] at h
          simp only [Option.bind_eq_bind, Option.some_bind] at h
          have hfs := ih reg scName fromSuper hrec
          subst hfs
          exact collect_fold_empty fuel reg (ih reg) c.interfaces l h
      · -- no superclass
        exact collect_fold_empty fuel reg (ih reg) c.interfaces l h

/-- C1: `alloc_object` for `B extends A` (where `A` declares instance field
`x`) installs only `B`'s own field — `collect_all_superclasses` returns the
empty set, so no `(A, x)` entry exists even though `A` is a supertype of `B`
declaring an instance field. -/
theorem alloc_object_misses_superclass_fields :
    Object.new 8 regAB clsB1 =
      some { className := "B", fields := [(("B", "y"), Value.int 0)] } ∧
    clsB1.superClass = some "A" ∧
    lookupClass regAB "A" = some clsA1 ∧
    clsA1.instFields = [{ name := "x", descriptor := "I" }] := by
  refine ⟨?_, rfl, rfl, rfl⟩
  rfl

/-! ### Class-initialization lemmas -/

/-- A call that does not find `BeforeInit` returns `Ok` immediately: no state
change, no events. -/
lemma initClass_not_before (fuel : Nat) (reg : Registry) (orc : String → Bool)
    (σ : InitStateMap) (c : Class) (h : σ c.name ≠ ClassInitState.beforeInit) :
    initClass (fuel + 1) reg orc σ c = some (RustOutcome.ok (), σ, []) := by
  cases hn : σ c.name with
  | beforeInit => exact absurd hn h
  | inProgress => simp only [initClass, hn]
  | succeeded => simp only [initClass, hn]
  | failed => simp only [initClass, hn]

/-- Sequential initialization preserves every cell that is past
`BeforeInit`, provided each step does. -/
lemma initSeqWith_frame
    (f : InitStateMap → Class → Option (RustOutcome Unit × InitStateMap × List InitEvent))
    (hf : ∀ σ c r σ' tr, f σ c = some (r, σ', tr) →
      ∀ x, σ x ≠ ClassInitState.beforeInit → σ' x = σ x) :
    ∀ (scs : List Class) (σ : InitStateMap) (r : RustOutcome Unit) (σ' : InitStateMap)
      (tr : List InitEvent), initSeqWith f σ scs = some (r, σ', tr) →
      ∀ x, σ x ≠ ClassInitState.beforeInit → σ' x = σ x := by
  intro scs
  induction scs with
  | nil =>
    intro σ r σ' tr h x hx
    simp only [initSeqWith, Option.some.injEq, Prod.mk.injEq] at h
    rw [← h.2.1]
  | cons sc rest ih =>
    intro σ r σ' tr h x hx
    simp only [initSeqWith] at h
    split at h
    · exact absurd h (by simp)
    · rename_i σ1 tr1 heq
      split at h
      · exact absurd h (by simp)
      · rename_i r2 σ2 tr2 heq2
        simp only [Option.some.injEq, Prod.mk.injEq] at h
        have hx1 : σ1 x = σ x := hf σ sc _ σ1 tr1 heq x hx
        have hx2 : σ2 x = σ1 x := ih σ1 r2 σ2 tr2 heq2 x (by rw [hx1]; exact hx)
        rw [← h.2.1, hx2, hx1]
    · rename_i r1 σ1 tr1 hne heq
      simp only [Option.some.injEq, Prod.mk.injEq] at h
      have hx1 : σ1 x = σ x := hf σ sc _ σ1 tr1 heq x hx
      rw [← h.2.1, hx1]

/-- `Class::initialize` never touches the init-state cell of a class that is
already past `BeforeInit` (in particular `Succeeded` and `Failed` are
terminal and reentrant calls are no-ops). -/
lemma initClass_frame :
    ∀ (fuel : Nat) (reg : Registry) (orc : String → Bool) (σ : InitStateMap) (c : Class)
      (r : RustOutcome Unit) (σ' : InitStateMap) (tr : List InitEvent),
      initClass fuel reg orc σ c = some (r, σ', tr) →
      ∀ x, σ x ≠ ClassInitState.beforeInit → σ' x = σ x := by
  intro fuel
  induction fuel with
  | zero => intro reg orc σ c r σ' tr h x hx; simp [initClass] at h
  | succ fuel ih =>
    intro reg orc σ c r σ' tr h x hx
    by_cases hb : σ c.name = ClassInitState.beforeInit
    case neg =>
      rw [initClass_not_before fuel reg orc σ c hb] at h
      simp only [Option.some.injEq, Prod.mk.injEq] at h
      rw [← h.2.1]
    case pos =>
      have hxc : x ≠ c.name := fun hxe => hx (hxe ▸ hb)
      have hrec : ∀ (σ2 : InitStateMap) (r0 : RustOutcome Unit) (tr0 : List InitEvent),
          (if c.isInterface then
            some (RustOutcome.ok (), setState σ c.name ClassInitState.inProgress,
              ([] : List InitEvent))
          else
            match superclassesToBeInitialized reg c with
            | none => some (RustOutcome.err "failed to resolve supertypes",
                setState σ c.name ClassInitState.inProgress, [])
            | some scs => initSeqWith (initClass fuel reg orc)
                (setState σ c.name ClassInitState.inProgress) scs) = some (r0, σ2, tr0) →
          σ2 x = σ x := by
        intro σ2 r0 tr0 heq
        have hσ1 : setState σ c.name ClassInitState.inProgress x = σ x := by
          simp [setState, hxc]
        split at heq
        · simp only [Option.some.injEq, Prod.mk.injEq] at heq
          rw [← heq.2.1, hσ1]
        · split at heq
          · simp only [Option.some.injEq, Prod.mk.injEq] at heq
            rw [← heq.2.1, hσ1]
          · rename_i scs hscs
            have := initSeqWith_frame (initClass fuel reg orc)
              (fun σa ca ra σa' tra ha => ih reg orc σa ca ra σa' tra ha) scs
              (setState σ c.name ClassInitState.inProgress) r0 σ2 tr0 heq x
              (by rw [hσ1]; exact hx)
            rw [this, hσ1]
      simp only [initClass, hb] at h
      split at h
      · exact absurd h (by simp)
      · rename_i σ2 tr0 heq
        have hσ2 : σ2 x = σ x := hrec σ2 _ tr0 heq
        split at h
        · split at h
          · simp only [Option.some.injEq, Prod.mk.injEq] at h
            rw [← h.2.1]
            simp [setState, hxc, hσ2]
          · simp only [Option.some.injEq, Prod.mk.injEq] at h
            rw [← h.2.1]
            simp [setState, hxc, hσ2]
        · simp only [Option.some.injEq, Prod.mk.injEq] at h
          rw [← h.2.1]
          simp [setState, hxc, hσ2]
      · rename_i r0 σ2 tr0 hne heq
        have hσ2 : σ2 x = σ x := hrec σ2 r0 tr0 heq
        simp only [Option.some.injEq, Prod.mk.injEq] at h
        rw [← h.2.1, hσ2]

/-- Sequential initialization only returns outcomes its step function can
return, plus `Ok`. -/
lemma initSeqWith_no_crash
    (f : InitStateMap → Class → Option (RustOutcome Unit × InitStateMap × List InitEvent))
    (hf : ∀ σ c r σ' tr, f σ c = some (r, σ', tr) → r ≠ RustOutcome.crash) :
    ∀ (scs : List Class) (σ : InitStateMap) (r : RustOutcome Unit) (σ' : InitStateMap)
      (tr : List InitEvent), initSeqWith f σ scs = some (r, σ', tr) →
      r ≠ RustOutcome.crash := by
  intro scs
  induction scs with
  | nil =>
    intro σ r σ' tr h
    simp only [initSeqWith, Option.some.injEq, Prod.mk.injEq] at h
    rw [← h.1]; simp
  | cons sc rest ih =>
    intro σ r σ' tr h
    simp only [initSeqWith] at h
    split at h
    · exact absurd h (by simp)
    · rename_i σ1 tr1 heq
      split at h
      · exact absurd h (by simp)
      · rename_i r2 σ2 tr2 heq2
        simp only [Option.some.injEq, Prod.mk.injEq] at h
        rw [← h.1]
        exact ih σ1 r2 σ2 tr2 heq2
    · rename_i r1 σ1 tr1 hne heq
      simp only [Option.some.injEq, Prod.mk.injEq] at h
      rw [← h.1]
      exact hf σ sc r1 σ1 tr1 heq

/-- `Class::initialize` returns `Ok` or `Err`, never a panic. -/
lemma initClass_no_crash :
    ∀ (fuel : Nat) (reg : Registry) (orc : String → Bool) (σ : InitStateMap) (c : Class)
      (r : RustOutcome Unit) (σ' : InitStateMap) (tr : List InitEvent),
      initClass fuel reg orc σ c = some (r, σ', tr) → r ≠ RustOutcome.crash := by
  intro fuel
  induction fuel with
  | zero => intro reg orc σ c r σ' tr h; simp [initClass] at h
  | succ fuel ih =>
    intro reg orc σ c r σ' tr h
    by_cases hb : σ c.name = ClassInitState.beforeInit
    case neg =>
      rw [initClass_not_before fuel reg orc σ c hb] at h
      simp only [Option.some.injEq, Prod.mk.injEq] at h
      rw [← h.1]; simp
    case pos =>
      simp only [initClass, hb] at h
      split at h
      · exact absurd h (by simp)
      · rename_i σ2 tr0 heq
        split at h
        · split at h
          · simp only [Option.some.injEq, Prod.mk.injEq] at h
            rw [← h.1]; simp
          · simp only [Option.some.injEq, Prod.mk.injEq] at h
            rw [← h.1]; simp
        · simp only [Option.some.injEq, Prod.mk.injEq] at h
          rw [← h.1]; simp
      · rename_i r0 σ2 tr0 hne heq
        simp only [Option.some.injEq, Prod.mk.injEq] at h
        rw [← h.1]
        split at heq
        · simp only [Option.some.injEq, Prod.mk.injEq] at heq
          rw [← heq.1]; simp
        · split at heq
          · simp only [Option.some.injEq, Prod.mk.injEq] at heq
            rw [← heq.1]; simp
          · exact initSeqWith_no_crash (initClass fuel reg orc)
              (fun σa ca ra σa' tra ha => ih reg orc σa ca ra σa' tra ha) _ _ r0 σ2 tr0 heq

/-- Outcome versus final own-cell state for a run that starts from
`BeforeInit`: `Ok` ends `Succeeded`; `Err` ends `Failed` when the class's
own `<clinit>` failed, and `InProgress` when the failure came from supertype
initialization. -/
lemma initClass_result (fuel : Nat) (reg : Registry) (orc : String → Bool)
    (σ : InitStateMap) (c : Class) (r : RustOutcome Unit) (σ' : InitStateMap)
    (tr : List InitEvent) (h : initClass fuel reg orc σ c = some (r, σ', tr))
    (hb : σ c.name = ClassInitState.beforeInit) :
    (r = RustOutcome.ok () → σ' c.name = ClassInitState.succeeded) ∧
    (∀ e, r = RustOutcome.err e →
      σ' c.name = ClassInitState.failed ∨ σ' c.name = ClassInitState.inProgress) := by
  rcases fuel with _ | fuel
  · simp [initClass] at h
  have hrec : ∀ (σ2 : InitStateMap) (r0 : RustOutcome Unit) (tr0 : List InitEvent),
      (if c.isInterface then
        some (RustOutcome.ok (), setState σ c.name ClassInitState.inProgress,
          ([] : List InitEvent))
      else
        match superclassesToBeInitialized reg c with
        | none => some (RustOutcome.err "failed to resolve supertypes",
            setState σ c.name ClassInitState.inProgress, [])
        | some scs => initSeqWith (initClass fuel reg orc)
            (setState σ c.name ClassInitState.inProgress) scs) = some (r0, σ2, tr0) →
      σ2 c.name = ClassInitState.inProgress := by
    intro σ2 r0 tr0 heq
    have hσ1 : setState σ c.name ClassInitState.inProgress c.name =
        ClassInitState.inProgress := by simp [setState]
    split at heq
    · simp only [Option.some.injEq, Prod.mk.injEq] at heq
      rw [← heq.2.1, hσ1]
    · split at heq
      · simp only [Option.some.injEq, Prod.mk.injEq] at heq
        rw [← heq.2.1, hσ1]
      · rename_i scs hscs
        have := initSeqWith_frame (initClass fuel reg orc)
          (fun σa ca ra σa' tra ha xa hxa =>
            initClass_frame fuel reg orc σa ca ra σa' tra ha xa hxa) scs
          (setState σ c.name ClassInitState.inProgress) r0 σ2 tr0 heq c.name
          (by rw [hσ1]; simp)
        rw [this, hσ1]
  simp only [initClass, hb] at h
  split at h
  · exact absurd h (by simp)
  · rename_i σ2 tr0 heq
    have hσ2 : σ2 c.name = ClassInitState.inProgress := hrec σ2 _ tr0 heq
    split at h
    · split at h
      · simp only [Option.some.injEq, Prod.mk.injEq] at h
        rw [← h.1, ← h.2.1]
        constructor
        · intro _; simp [setState]
        · intro e he; simp at he
      · simp only [Option.some.injEq, Prod.mk.injEq] at h
        rw [← h.1, ← h.2.1]
        constructor
        · intro hok; simp at hok
        · intro e he; left; simp [setState]
    · simp only [Option.some.injEq, Prod.mk.injEq] at h
      rw [← h.1, ← h.2.1]
      constructor
      · intro _; simp [setState]
      · intro e he; simp at he
  · rename_i r0 σ2 tr0 hne heq
    have hσ2 : σ2 c.name = ClassInitState.inProgress := hrec σ2 r0 tr0 heq
    simp only [Option.some.injEq, Prod.mk.injEq] at h
    rw [← h.1, ← h.2.1]
    exact ⟨fun hok => absurd hok (hne ()), fun e he => Or.inr hσ2⟩

/-- `stateAdvances` is reflexive. -/
lemma stateAdvances_refl (s : ClassInitState) : stateAdvances s s = true := by
  cases s <;> rfl

/-- C4 counterexample: with `B extends A` and `A`'s `<clinit>` failing,
`initialize(B)` returns `Err` yet leaves `B` in `InProgress` (not `Failed`),
and a later `initialize(A)` on the `Failed` class returns `Ok` with final
state still `Failed` (not `Succeeded`). -/
theorem initClass_err_inProgress_ok_failed :
    ∃ e σ1 tr1, initClass 8 regFail orcFailA sigma0 clsBF =
        some (RustOutcome.err e, σ1, tr1) ∧
      σ1 "B" = ClassInitState.inProgress ∧
      σ1 "A" = ClassInitState.failed ∧
      ∃ σ2 tr2, initClass 8 regFail orcFailA σ1 clsAF =
          some (RustOutcome.ok (), σ2, tr2) ∧
        σ2 "A" = ClassInitState.failed :=
  ⟨_, _, _, rfl, rfl, rfl, _, _, rfl, rfl⟩

/-- C4 (amended): an `initialize` call that finds a state past `BeforeInit`
returns `Ok` immediately with nothing changed; a call from `BeforeInit`
returns `Ok` only with final own-state `Succeeded`, and `Err` with final
own-state `Failed` (own `<clinit>` failed) or `InProgress` (supertype
initialization failed); no call panics; and every cell moves only along
`BeforeInit → InProgress → Succeeded | Failed` with `Succeeded` and `Failed`
terminal. -/
theorem initClass_state_machine (fuel : Nat) (reg : Registry) (orc : String → Bool)
    (σ : InitStateMap) (c : Class) (r : RustOutcome Unit) (σ' : InitStateMap)
    (tr : List InitEvent) (h : initClass fuel reg orc σ c = some (r, σ', tr)) :
    (σ c.name ≠ ClassInitState.beforeInit →
      r = RustOutcome.ok () ∧ σ' = σ ∧ tr = []) ∧
    (σ c.name = ClassInitState.beforeInit →
      (r = RustOutcome.ok () → σ' c.name = ClassInitState.succeeded) ∧
      (∀ e, r = RustOutcome.err e →
        σ' c.name = ClassInitState.failed ∨ σ' c.name = ClassInitState.inProgress)) ∧
    r ≠ RustOutcome.crash ∧
    (∀ x, stateAdvances (σ x) (σ' x) = true) := by
  refine ⟨?_, ?_, ?_, ?_⟩
  · intro hnb
    rcases fuel with _ | fuel
    · simp [initClass] at h
    · rw [initClass_not_before fuel reg orc σ c hnb] at h
      simp only [Option.some.injEq, Prod.mk.injEq] at h
      exact ⟨h.1.symm, h.2.1.symm, h.2.2.symm⟩
  · intro hb
    exact initClass_result fuel reg orc σ c r σ' tr h hb
  · exact initClass_no_crash fuel reg orc σ c r σ' tr h
  · intro x
    by_cases hx : σ x = ClassInitState.beforeInit
    · rw [hx]; rfl
    · rw [initClass_frame fuel reg orc σ c r σ' tr h x hx]
      exact stateAdvances_refl (σ x)

/-- C4 witness: the state machine instantiated at a one-shot successful
initialization of `A` from `BeforeInit`. -/
theorem initClass_state_machine_witness :
    ∃ r σ' tr, initClass 1 ([] : Registry) orcAllOk sigma0 clsAF = some (r, σ', tr) ∧
      ((sigma0 clsAF.name ≠ ClassInitState.beforeInit →
          r = RustOutcome.ok () ∧ σ' = sigma0 ∧ tr = []) ∧
       (sigma0 clsAF.name = ClassInitState.beforeInit →
          (r = RustOutcome.ok () → σ' clsAF.name = ClassInitState.succeeded) ∧
          (∀ e, r = RustOutcome.err e →
            σ' clsAF.name = ClassInitState.failed ∨
            σ' clsAF.name = ClassInitState.inProgress)) ∧
       r ≠ RustOutcome.crash ∧
       (∀ x, stateAdvances (sigma0 x) (σ' x) = true)) :=
  ⟨_, _, _, rfl, initClass_state_machine 1 [] orcAllOk sigma0 clsAF _ _ _ rfl⟩

/-- C5 counterexample: `initialize` on a class whose state is `Failed`
returns `Ok` immediately — not an `InitializationFailed` error — so callers
(`getstatic`, `new`, `invokestatic`) proceed as if initialization had
succeeded. -/
theorem initClass_failed_returns_ok :
    initClass 8 regFail orcFailA sigmaAFailed clsAF =
      some (RustOutcome.ok (), sigmaAFailed, []) := rfl

/-- C5 (amended): a failed initialization is permanent — any later
`initialize` call on the `Failed` class leaves every state cell unchanged
and runs no `<clinit>` (empty event trace) — but it returns `Ok ()` rather
than failing fast with an `InitializationFailed` error. -/
theorem initClass_failed_permanent (fuel : Nat) (reg : Registry) (orc : String → Bool)
    (σ : InitStateMap) (c : Class) (r : RustOutcome Unit) (σ' : InitStateMap)
    (tr : List InitEvent) (h : initClass fuel reg orc σ c = some (r, σ', tr))
    (hf : σ c.name = ClassInitState.failed) :
    r = RustOutcome.ok () ∧ σ' = σ ∧ tr = [] ∧
    (∀ x, σ x = ClassInitState.failed → σ' x = ClassInitState.failed) := by
  rcases fuel with _ | fuel
  · simp [initClass] at h
  · rw [initClass_not_before fuel reg orc σ c (by rw [hf]; simp)] at h
    simp only [Option.some.injEq, Prod.mk.injEq] at h
    refine ⟨h.1.symm, h.2.1.symm, h.2.2.symm, ?_⟩
    intro x hx
    rw [← h.2.1, hx]

/-- C5 witness: the permanence theorem instantiated at the `Failed` class
`A`. -/
theorem initClass_failed_permanent_witness :
    RustOutcome.ok () = RustOutcome.ok () ∧
    sigmaAFailed = sigmaAFailed ∧
    ([] : List InitEvent) = [] ∧
    (∀ x, sigmaAFailed x = ClassInitState.failed →
      sigmaAFailed x = ClassInitState.failed) :=
  initClass_failed_permanent 8 regFail orcFailA sigmaAFailed clsAF _ _ _ rfl rfl

/-- A successful registry lookup returns a class with the looked-up name. -/
lemma lookupClass_name (reg : Registry) (s : String) (d : Class)
    (h : lookupClass reg s = some d) : d.name = s := by
  have := List.find?_some h
  simpa using this

/-- Names of the supertype-initialization list: the superclass (if present)
followed by exactly the direct super-interfaces that declare at least one
non-abstract instance method, in declaration order. -/
lemma supersToBeInitialized_names (reg : Registry) (c : Class) (scs : List Class)
    (h : superclassesToBeInitialized reg c = some scs) :
    scs.map Class.name =
      (match c.superClass with | some s => [s] | none => []) ++
      c.interfaces.filter (fun ifName =>
        match lookupClass reg ifName with
        | some iface => iface.instMethods.any (fun m => !m.accessFlags.isAbstract)
        | none => false) := by
  have haux : ∀ (ifs : List String) (acc res : List Class),
      (ifs.foldlM (fun acc ifName => do
        let iface ← lookupClass reg ifName
        if iface.instMethods.any (fun m => !m.accessFlags.isAbstract) then
          pure (acc ++ [iface])
        else pure acc) acc) = some res →
      res.map Class.name = acc.map Class.name ++ ifs.filter (fun ifName =>
        match lookupClass reg ifName with
        | some iface => iface.instMethods.any (fun m => !m.accessFlags.isAbstract)
        | none => false) := by
    intro ifs
    induction ifs with
    | nil =>
      intro acc res hh
      simp only [List.foldlM] at hh
      obtain rfl : acc = res := by simpa using hh
      simp
    | cons x xs ih =>
      intro acc res hh
      simp only [List.foldlM] at hh
      rcases hx : lookupClass reg x with _ | iface
      · rw [hx] at hh; simp at hh
      · rw [hx] at hh
        simp only [Option.bind_eq_bind, Option.some_bind] at hh
        by_cases hany : iface.instMethods.any (fun m => !m.accessFlags.isAbstract) = true
        · rw [if_pos hany] at hh
          have := ih (acc ++ [iface]) res hh
          rw [this]
          simp [List.filter_cons, hx, hany, lookupClass_name reg x iface hx]
        · rw [if_neg hany] at hh
          have := ih acc res hh
          rw [this]
          simp only [List.filter_cons, hx]
          rw [if_neg (by simpa using hany)]
  simp only [superclassesToBeInitialized] at h
  split at h
  · -- superclass present
    rename_i scName hsc
    rcases hlk : lookupClass reg scName with _ | sc
    · rw [hlk] at h; simp at h
    · rw [hlk] at h
      simp only [Option.map_some', Option.bind_eq_bind, Option.some_bind] at h
      have := haux c.interfaces [sc] scs h
      rw [this]
      simp [lookupClass_name reg scName sc hlk]
  · rename_i hsc
    simp only [Option.pure_def, Option.bind_eq_bind, Option.some_bind] at h
    have := haux c.interfaces [] scs h
    rw [this]
    simp

/-- Sequential initialization produces no events for classes already past
`BeforeInit`, provided each step doesn't. -/
lemma initSeqWith_no_events
    (f : InitStateMap → Class → Option (RustOutcome Unit × InitStateMap × List InitEvent))
    (hframe : ∀ σ c r σ' tr, f σ c = some (r, σ', tr) →
      ∀ x, σ x ≠ ClassInitState.beforeInit → σ' x = σ x)
    (hev : ∀ σ c r σ' tr, f σ c = some (r, σ', tr) →
      ∀ x, σ x ≠ ClassInitState.beforeInit →
        InitEvent.enter x ∉ tr ∧ InitEvent.clinit x ∉ tr) :
    ∀ (scs : List Class) (σ : InitStateMap) (r : RustOutcome Unit) (σ' : InitStateMap)
      (tr : List InitEvent), initSeqWith f σ scs = some (r, σ', tr) →
      ∀ x, σ x ≠ ClassInitState.beforeInit →
        InitEvent.enter x ∉ tr ∧ InitEvent.clinit x ∉ tr := by
  intro scs
  induction scs with
  | nil =>
    intro σ r σ' tr h x hx
    simp only [initSeqWith, Option.some.injEq, Prod.mk.injEq] at h
    rw [← h.2.2]
    simp
  | cons sc rest ih =>
    intro σ r σ' tr h x hx
    simp only [initSeqWith] at h
    split at h
    · exact absurd h (by simp)
    · rename_i σ1 tr1 heq
      split at h
      · exact absurd h (by simp)
      · rename_i r2 σ2 tr2 heq2
        simp only [Option.some.injEq, Prod.mk.injEq] at h
        rw [← h.2.2]
        have h1 := hev σ sc _ σ1 tr1 heq x hx
        have hx1 : σ1 x = σ x := hframe σ sc _ σ1 tr1 heq x hx
        have h2 := ih σ1 r2 σ2 tr2 heq2 x (by rw [hx1]; exact hx)
        constructor
        · intro hm
          rcases List.mem_append.mp hm with hm | hm
          · exact h1.1 hm
          · exact h2.1 hm
        · intro hm
          rcases List.mem_append.mp hm with hm | hm
          · exact h1.2 hm
          · exact h2.2 hm
    · rename_i r1 σ1 tr1 hne heq
      simp only [Option.some.injEq, Prod.mk.injEq] at h
      rw [← h.2.2]
      exact hev σ sc r1 σ1 tr1 heq x hx

/-- In a sequential initialization, a changed cell was entered somewhere in
the trace, provided that holds of each step. -/
lemma initSeqWith_change_enter
    (f : InitStateMap → Class → Option (RustOutcome Unit × InitStateMap × List InitEvent))
    (hch : ∀ σ c r σ' tr, f σ c = some (r, σ', tr) →
      ∀ x, σ' x ≠ σ x → InitEvent.enter x ∈ tr) :
    ∀ (scs : List Class) (σ : InitStateMap) (r : RustOutcome Unit) (σ' : InitStateMap)
      (tr : List InitEvent), initSeqWith f σ scs = some (r, σ', tr) →
      ∀ x, σ' x ≠ σ x → InitEvent.enter x ∈ tr := by
  intro scs
  induction scs with
  | nil =>
    intro σ r σ' tr h x hx
    simp only [initSeqWith, Option.some.injEq, Prod.mk.injEq] at h
    rw [← h.2.1] at hx
    exact absurd rfl hx
  | cons sc rest ih =>
    intro σ r σ' tr h x hx
    simp only [initSeqWith] at h
    split at h
    · exact absurd h (by simp)
    · rename_i σ1 tr1 heq
      split at h
      · exact absurd h (by simp)
      · rename_i r2 σ2 tr2 heq2
        simp only [Option.some.injEq, Prod.mk.injEq] at h
        rw [← h.2.2]
        rw [← h.2.1] at hx
        by_cases hx1 : σ1 x = σ x
        · exact List.mem_append.mpr (Or.inr (ih σ1 r2 σ2 tr2 heq2 x (by rw [hx1]; exact hx)))
        · exact List.mem_append.mpr (Or.inl (hch σ sc _ σ1 tr1 heq x hx1))
    · rename_i r1 σ1 tr1 hne heq
      simp only [Option.some.injEq, Prod.mk.injEq] at h
      rw [← h.2.2]
      rw [← h.2.1] at hx
      exact hch σ sc r1 σ1 tr1 heq x hx

/-- On a fully successful sequential initialization, every cell that started
in `BeforeInit` ends in `BeforeInit` (untouched) or `Succeeded`, provided
that holds of each step. -/
lemma initSeqWith_ok_good
    (f : InitStateMap → Class → Option (RustOutcome Unit × InitStateMap × List InitEvent))
    (hframe : ∀ σ c r σ' tr, f σ c = some (r, σ', tr) →
      ∀ x, σ x ≠ ClassInitState.beforeInit → σ' x = σ x)
    (hgood : ∀ σ c σ' tr, f σ c = some (RustOutcome.ok (), σ', tr) →
      ∀ x, σ x = ClassInitState.beforeInit →
        σ' x = ClassInitState.beforeInit ∨ σ' x = ClassInitState.succeeded) :
    ∀ (scs : List Class) (σ σ' : InitStateMap) (tr : List InitEvent),
      initSeqWith f σ scs = some (RustOutcome.ok (), σ', tr) →
      ∀ x, σ x = ClassInitState.beforeInit →
        σ' x = ClassInitState.beforeInit ∨ σ' x = ClassInitState.succeeded := by
  intro scs
  induction scs with
  | nil =>
    intro σ σ' tr h x hx
    simp only [initSeqWith, Option.some.injEq, Prod.mk.injEq] at h
    rw [← h.2.1]
    exact Or.inl hx
  | cons sc rest ih =>
    intro σ σ' tr h x hx
    simp only [initSeqWith] at h
    split at h
    · exact absurd h (by simp)
    · rename_i σ1 tr1 heq
      split at h
      · exact absurd h (by simp)
      · rename_i r2 σ2 tr2 heq2
        simp only [Option.some.injEq, Prod.mk.injEq] at h
        obtain ⟨hr2, hσ2, -⟩ := h
        subst hσ2
        rw [hr2] at heq2
        rcases hgood σ sc σ1 tr1 heq x hx with h1 | h1
        · exact ih σ1 σ2 tr2 heq2 x h1
        · right
          rw [initSeqWith_frame f hframe rest σ1 _ σ2 tr2 heq2 x (by rw [h1]; simp), h1]
    · rename_i r1 σ1 tr1 hne heq
      simp only [Option.some.injEq, Prod.mk.injEq] at h
      exact absurd h.1 (by simpa using hne ())

/-- `Class::initialize` produces no events for classes already past
`BeforeInit`: such classes are neither entered nor is their `<clinit>`
run. -/
lemma initClass_no_events :
    ∀ (fuel : Nat) (reg : Registry) (orc : String → Bool) (σ : InitStateMap) (c : Class)
      (r : RustOutcome Unit) (σ' : InitStateMap) (tr : List InitEvent),
      initClass fuel reg orc σ c = some (r, σ', tr) →
      ∀ x, σ x ≠ ClassInitState.beforeInit →
        InitEvent.enter x ∉ tr ∧ InitEvent.clinit x ∉ tr := by
  intro fuel
  induction fuel with
  | zero => intro reg orc σ c r σ' tr h x hx; simp [initClass] at h
  | succ fuel ih =>
    intro reg orc σ c r σ' tr h x hx
    by_cases hb : σ c.name = ClassInitState.beforeInit
    case neg =>
      rw [initClass_not_before fuel reg orc σ c hb] at h
      simp only [Option.some.injEq, Prod.mk.injEq] at h
      rw [← h.2.2]
      simp
    case pos =>
      have hxc : x ≠ c.name := fun hxe => hx (hxe ▸ hb)
      have hσ1x : setState σ c.name ClassInitState.inProgress x = σ x := by
        simp [setState, hxc]
      have hrec : ∀ (σ2 : InitStateMap) (r0 : RustOutcome Unit) (tr0 : List InitEvent),
          (if c.isInterface then
            some (RustOutcome.ok (), setState σ c.name ClassInitState.inProgress,
              ([] : List InitEvent))
          else
            match superclassesToBeInitialized reg c with
            | none => some (RustOutcome.err "failed to resolve supertypes",
                setState σ c.name ClassInitState.inProgress, [])
            | some scs => initSeqWith (initClass fuel reg orc)
                (setState σ c.name ClassInitState.inProgress) scs) = some (r0, σ2, tr0) →
          InitEvent.enter x ∉ tr0 ∧ InitEvent.clinit x ∉ tr0 := by
        intro σ2 r0 tr0 heq
        split at heq
        · simp only [Option.some.injEq, Prod.mk.injEq] at heq
          rw [← heq.2.2]; simp
        · split at heq
          · simp only [Option.some.injEq, Prod.mk.injEq] at heq
            rw [← heq.2.2]; simp
          · rename_i scs hscs
            exact initSeqWith_no_events (initClass fuel reg orc)
              (fun σa ca ra σa' tra ha => initClass_frame fuel reg orc σa ca ra σa' tra ha)
              (fun σa ca ra σa' tra ha => ih reg orc σa ca ra σa' tra ha) scs
              (setState σ c.name ClassInitState.inProgress) r0 σ2 tr0 heq x
              (by rw [hσ1x]; exact hx)
      simp only [initClass, hb] at h
      split at h
      · exact absurd h (by simp)
      · rename_i σ2 tr0 heq
        have h0 := hrec σ2 _ tr0 heq
        split at h
        · split at h
          · simp only [Option.some.injEq, Prod.mk.injEq] at h
            rw [← h.2.2]
            simp [hxc, Ne.symm hxc, h0.1, h0.2]
          · simp only [Option.some.injEq, Prod.mk.injEq] at h
            rw [← h.2.2]
            simp [hxc, Ne.symm hxc, h0.1, h0.2]
        · simp only [Option.some.injEq, Prod.mk.injEq] at h
          rw [← h.2.2]
          simp [hxc, Ne.symm hxc, h0.1, h0.2]
      · rename_i r0 σ2 tr0 hne heq
        have h0 := hrec σ2 r0 tr0 heq
        simp only [Option.some.injEq, Prod.mk.injEq] at h
        rw [← h.2.2]
        simp [hxc, Ne.symm hxc, h0.1, h0.2]

/-- In `Class::initialize`, any init-state cell that changed belongs to a
class that was entered during the run. -/
lemma initClass_change_enter :
    ∀ (fuel : Nat) (reg : Registry) (orc : String → Bool) (σ : InitStateMap) (c : Class)
      (r : RustOutcome Unit) (σ' : InitStateMap) (tr : List InitEvent),
      initClass fuel reg orc σ c = some (r, σ', tr) →
      ∀ x, σ' x ≠ σ x → InitEvent.enter x ∈ tr := by
  intro fuel
  induction fuel with
  | zero => intro reg orc σ c r σ' tr h x hx; simp [initClass] at h
  | succ fuel ih =>
    intro reg orc σ c r σ' tr h x hx
    by_cases hb : σ c.name = ClassInitState.beforeInit
    case neg =>
      rw [initClass_not_before fuel reg orc σ c hb] at h
      simp only [Option.some.injEq, Prod.mk.injEq] at h
      rw [← h.2.1] at hx
      exact absurd rfl hx
    case pos =>
      by_cases hxc : x = c.name
      · -- the class itself: the head of the trace is its enter event
        subst hxc
        simp only [initClass, hb] at h
        split at h
        · exact absurd h (by simp)
        · split at h
          · split at h
            · simp only [Option.some.injEq, Prod.mk.injEq] at h
              rw [← h.2.2]; simp
            · simp only [Option.some.injEq, Prod.mk.injEq] at h
              rw [← h.2.2]; simp
          · simp only [Option.some.injEq, Prod.mk.injEq] at h
            rw [← h.2.2]; simp
        · simp only [Option.some.injEq, Prod.mk.injEq] at h
          rw [← h.2.2]; simp
      · -- any other class: the change happened inside the supertype recursion
        have hσ1x : setState σ c.name ClassInitState.inProgress x = σ x := by
          simp [setState, hxc]
        have hrec : ∀ (σ2 : InitStateMap) (r0 : RustOutcome Unit) (tr0 : List InitEvent),
            (if c.isInterface then
              some (RustOutcome.ok (), setState σ c.name ClassInitState.inProgress,
                ([] : List InitEvent))
            else
              match superclassesToBeInitialized reg c with
              | none => some (RustOutcome.err "failed to resolve supertypes",
                  setState σ c.name ClassInitState.inProgress, [])
              | some scs => initSeqWith (initClass fuel reg orc)
                  (setState σ c.name ClassInitState.inProgress) scs) = some (r0, σ2, tr0) →
            σ2 x ≠ σ x → InitEvent.enter x ∈ tr0 := by
          intro σ2 r0 tr0 heq hch
          split at heq
          · simp only [Option.some.injEq, Prod.mk.injEq] at heq
            rw [← heq.2.1] at hch
            exact absurd hσ1x hch
          · split at heq
            · simp only [Option.some.injEq, Prod.mk.injEq] at heq
              rw [← heq.2.1] at hch
              exact absurd hσ1x hch
            · rename_i scs hscs
              refine initSeqWith_change_enter (initClass fuel reg orc)
                (fun σa ca ra σa' tra ha => ih reg orc σa ca ra σa' tra ha) scs
                (setState σ c.name ClassInitState.inProgress) r0 σ2 tr0 heq x ?_
              rw [hσ1x]
              exact hch
        simp only [initClass, hb] at h
        split at h
        · exact absurd h (by simp)
        · rename_i σ2 tr0 heq
          have hσ' : ∀ s, setState σ2 c.name s x = σ2 x := by
            intro s; simp [setState, hxc]
          split at h
          · split at h
            · simp only [Option.some.injEq, Prod.mk.injEq] at h
              rw [← h.2.1] at hx
              rw [← h.2.2]
              rw [hσ'] at hx
              have := hrec σ2 _ tr0 heq hx
              simp [this]
            · simp only [Option.some.injEq, Prod.mk.injEq] at h
              rw [← h.2.1] at hx
              rw [← h.2.2]
              rw [hσ'] at hx
              have := hrec σ2 _ tr0 heq hx
              simp [this]
          · simp only [Option.some.injEq, Prod.mk.injEq] at h
            rw [← h.2.1] at hx
            rw [← h.2.2]
            rw [hσ'] at hx
            have := hrec σ2 _ tr0 heq hx
            simp [this]
        · rename_i r0 σ2 tr0 hne heq
          simp only [Option.some.injEq, Prod.mk.injEq] at h
          rw [← h.2.1] at hx
          rw [← h.2.2]
          have := hrec σ2 r0 tr0 heq hx
          simp [this]

/-- On an `Ok` run of `Class::initialize`, every cell that started in
`BeforeInit` ends either untouched (`BeforeInit`) or fully initialized
(`Succeeded`): a success leaves no class stuck in `InProgress` or newly
`Failed`. -/
lemma initClass_ok_good :
    ∀ (fuel : Nat) (reg : Registry) (orc : String → Bool) (σ : InitStateMap) (c : Class)
      (σ' : InitStateMap) (tr : List InitEvent),
      initClass fuel reg orc σ c = some (RustOutcome.ok (), σ', tr) →
      ∀ x, σ x = ClassInitState.beforeInit →
        σ' x = ClassInitState.beforeInit ∨ σ' x = ClassInitState.succeeded := by
  intro fuel
  induction fuel with
  | zero => intro reg orc σ c σ' tr h x hx; simp [initClass] at h
  | succ fuel ih =>
    intro reg orc σ c σ' tr h x hx
    by_cases hb : σ c.name = ClassInitState.beforeInit
    case neg =>
      rw [initClass_not_before fuel reg orc σ c hb] at h
      simp only [Option.some.injEq, Prod.mk.injEq] at h
      rw [← h.2.1]
      exact Or.inl hx
    case pos =>
      by_cases hxc : x = c.name
      · subst hxc
        right
        exact (initClass_result (fuel + 1) reg orc σ c _ σ' tr h hb).1 rfl
      · have hσ1x : setState σ c.name ClassInitState.inProgress x = σ x := by
          simp [setState, hxc]
        have hrec : ∀ (σ2 : InitStateMap) (tr0 : List InitEvent),
            (if c.isInterface then
              some (RustOutcome.ok (), setState σ c.name ClassInitState.inProgress,
                ([] : List InitEvent))
            else
              match superclassesToBeInitialized reg c with
              | none => some (RustOutcome.err "failed to resolve supertypes",
                  setState σ c.name ClassInitState.inProgress, [])
              | some scs => initSeqWith (initClass fuel reg orc)
                  (setState σ c.name ClassInitState.inProgress) scs) =
              some (RustOutcome.ok (), σ2, tr0) →
            σ2 x = ClassInitState.beforeInit ∨ σ2 x = ClassInitState.succeeded := by
          intro σ2 tr0 heq
          split at heq
          · simp only [Option.some.injEq, Prod.mk.injEq] at heq
            rw [← heq.2.1, hσ1x]
            exact Or.inl hx
          · split at heq
            · simp only [Option.some.injEq, Prod.mk.injEq] at heq
              exact absurd heq.1 (by simp)
            · rename_i scs hscs
              refine initSeqWith_ok_good (initClass fuel reg orc)
                (fun σa ca ra σa' tra ha => initClass_frame fuel reg orc σa ca ra σa' tra ha)
                (fun σa ca σa' tra ha => ih reg orc σa ca σa' tra ha) scs
                (setState σ c.name ClassInitState.inProgress) σ2 tr0 heq x ?_
              rw [hσ1x]
              exact hx
        simp only [initClass, hb] at h
        split at h
        · exact absurd h (by simp)
        · rename_i σ2 tr0 heq
          have hσ' : ∀ s, setState σ2 c.name s x = σ2 x := by
            intro s; simp [setState, hxc]
          split at h
          · split at h
            · simp only [Option.some.injEq, Prod.mk.injEq] at h
              rw [← h.2.1, hσ']
              exact hrec σ2 tr0 heq
            · simp only [Option.some.injEq, Prod.mk.injEq] at h
              exact absurd h.1 (by simp)
          · simp only [Option.some.injEq, Prod.mk.injEq] at h
            rw [← h.2.1, hσ']
            exact hrec σ2 tr0 heq
        · rename_i r0 σ2 tr0 hne heq
          simp only [Option.some.injEq, Prod.mk.injEq] at h
          exact absurd h.1 (by simpa using hne ())

/-- A run of `Class::initialize` from `BeforeInit` opens its trace with the
class's own enter event. -/
lemma initClass_enter_head (fuel : Nat) (reg : Registry) (orc : String → Bool)
    (σ : InitStateMap) (c : Class) (r : RustOutcome Unit) (σ' : InitStateMap)
    (tr : List InitEvent) (h : initClass fuel reg orc σ c = some (r, σ', tr))
    (hb : σ c.name = ClassInitState.beforeInit) :
    ∃ t, tr = InitEvent.enter c.name :: t := by
  rcases fuel with _ | fuel
  · simp [initClass] at h
  simp only [initClass, hb] at h
  split at h
  · exact absurd h (by simp)
  · split at h
    · split at h
      · simp only [Option.some.injEq, Prod.mk.injEq] at h
        exact ⟨_, h.2.2.symm⟩
      · simp only [Option.some.injEq, Prod.mk.injEq] at h
        exact ⟨_, h.2.2.symm⟩
    · simp only [Option.some.injEq, Prod.mk.injEq] at h
      exact ⟨_, h.2.2.symm⟩
  · simp only [Option.some.injEq, Prod.mk.injEq] at h
    exact ⟨_, h.2.2.symm⟩

/-- On a fully successful sequential initialization, every listed class that
still needed initialization was entered during the run and ends
`Succeeded`. -/
lemma initSeqWith_member
    (f : InitStateMap → Class → Option (RustOutcome Unit × InitStateMap × List InitEvent))
    (hframe : ∀ σ c r σ' tr, f σ c = some (r, σ', tr) →
      ∀ x, σ x ≠ ClassInitState.beforeInit → σ' x = σ x)
    (hch : ∀ σ c r σ' tr, f σ c = some (r, σ', tr) →
      ∀ x, σ' x ≠ σ x → InitEvent.enter x ∈ tr)
    (hgood : ∀ σ c σ' tr, f σ c = some (RustOutcome.ok (), σ', tr) →
      ∀ x, σ x = ClassInitState.beforeInit →
        σ' x = ClassInitState.beforeInit ∨ σ' x = ClassInitState.succeeded)
    (hres : ∀ σ c σ' tr, f σ c = some (RustOutcome.ok (), σ', tr) →
      σ c.name = ClassInitState.beforeInit →
        σ' c.name = ClassInitState.succeeded ∧ InitEvent.enter c.name ∈ tr) :
    ∀ (scs : List Class) (σ σ' : InitStateMap) (tr : List InitEvent),
      initSeqWith f σ scs = some (RustOutcome.ok (), σ', tr) →
      ∀ d ∈ scs, σ d.name = ClassInitState.beforeInit →
        InitEvent.enter d.name ∈ tr ∧ σ' d.name = ClassInitState.succeeded := by
  intro scs
  induction scs with
  | nil => intro σ σ' tr h d hd; simp at hd
  | cons sc rest ih =>
    intro σ σ' tr h d hd hdb
    simp only [initSeqWith] at h
    split at h
    · exact absurd h (by simp)
    · rename_i σ1 tr1 heq
      split at h
      · exact absurd h (by simp)
      · rename_i r2 σ2 tr2 heq2
        simp only [Option.some.injEq, Prod.mk.injEq] at h
        obtain ⟨hr2, hσ2, htr⟩ := h
        subst hσ2
        rw [hr2] at heq2
        rw [← htr]
        rcases List.mem_cons.mp hd with hdc | hdr
        · -- d is the head: its own step initialized it
          subst hdc
          have h1 := hres σ d σ1 tr1 heq hdb
          refine ⟨List.mem_append.mpr (Or.inl h1.2), ?_⟩
          rw [initSeqWith_frame f hframe rest σ1 _ σ2 tr2 heq2 d.name (by rw [h1.1]; simp)]
          exact h1.1
        · by_cases hd1 : σ1 d.name = ClassInitState.beforeInit
          · have h2 := ih σ1 σ2 tr2 heq2 d hdr hd1
            exact ⟨List.mem_append.mpr (Or.inr h2.1), h2.2⟩
          · have henter : InitEvent.enter d.name ∈ tr1 :=
              hch σ sc _ σ1 tr1 heq d.name (by rw [hdb]; exact hd1)
            have hsucc : σ1 d.name = ClassInitState.succeeded := by
              rcases hgood σ sc σ1 tr1 heq d.name hdb with hg | hg
              · exact absurd hg hd1
              · exact hg
            refine ⟨List.mem_append.mpr (Or.inl henter), ?_⟩
            rw [initSeqWith_frame f hframe rest σ1 _ σ2 tr2 heq2 d.name (by rw [hsucc]; simp)]
            exact hsucc
    · rename_i r1 σ1 tr1 hne heq
      simp only [Option.some.injEq, Prod.mk.injEq] at h
      exact absurd h.1 (by simpa using hne ())

/-- C9: a run of `initialize` from `BeforeInit` on a non-interface class
recursively initializes exactly the superclass (if present) and the direct
super-interfaces declaring at least one non-abstract instance method — each
such supertype still in `BeforeInit` is entered and ends `Succeeded` — and
the class's own `<clinit>` event comes after all of that, as the last event
of the trace; a run on an interface initializes no supertypes: its trace
holds only its own events. -/
theorem initClass_supertype_recursion (fuel : Nat) (reg : Registry)
    (orc : String → Bool) (σ : InitStateMap) (c : Class) (r : RustOutcome Unit)
    (σ' : InitStateMap) (tr : List InitEvent)
    (h : initClass fuel reg orc σ c = some (r, σ', tr))
    (hb : σ c.name = ClassInitState.beforeInit) :
    (c.isInterface = true →
      tr = InitEvent.enter c.name ::
        (if (c.lookupStaticMethod clinitSignature).isSome
         then [InitEvent.clinit c.name] else [])) ∧
    (c.isInterface = false → ∀ scs, superclassesToBeInitialized reg c = some scs →
      (scs.map Class.name =
        (match c.superClass with | some s => [s] | none => []) ++
        c.interfaces.filter (fun ifName =>
          match lookupClass reg ifName with
          | some iface => iface.instMethods.any (fun m => !m.accessFlags.isAbstract)
          | none => false)) ∧
      (r = RustOutcome.ok () →
        ((c.lookupStaticMethod clinitSignature).isSome →
          ∃ t, tr = InitEvent.enter c.name :: (t ++ [InitEvent.clinit c.name]) ∧
            InitEvent.enter c.name ∉ t ∧ InitEvent.clinit c.name ∉ t) ∧
        (∀ d ∈ scs, σ d.name = ClassInitState.beforeInit → d.name ≠ c.name →
          InitEvent.enter d.name ∈ tr ∧ σ' d.name = ClassInitState.succeeded))) := by
  rcases fuel with _ | fuel
  · simp [initClass] at h
  have hσ1c : setState σ c.name ClassInitState.inProgress c.name =
      ClassInitState.inProgress := by simp [setState]
  constructor
  · -- interface case
    intro hi
    simp only [initClass, hb] at h
    split at h
    · exact absurd h (by simp)
    · rename_i σ2 tr0 heq
      rw [if_pos hi] at heq
      simp only [Option.some.injEq, Prod.mk.injEq] at heq
      obtain ⟨-, -, htr0⟩ := heq
      split at h
      · rename_i hsome
        rw [if_pos hsome]
        split at h
        · simp only [Option.some.injEq, Prod.mk.injEq] at h
          rw [← h.2.2, ← htr0]
          simp
        · simp only [Option.some.injEq, Prod.mk.injEq] at h
          rw [← h.2.2, ← htr0]
          simp
      · rename_i hsome
        rw [if_neg hsome]
        simp only [Option.some.injEq, Prod.mk.injEq] at h
        rw [← h.2.2, ← htr0]
    · rename_i r0 σ2 tr0 hne heq
      rw [if_pos hi] at heq
      simp only [Option.some.injEq, Prod.mk.injEq] at heq
      rw [heq.1.symm] at hne
      exact (hne () rfl).elim
  · -- class case
    intro hi scs hscs
    refine ⟨supersToBeInitialized_names reg c scs hscs, ?_⟩
    intro hok
    subst hok
    -- the successful supertype recursion
    have hmain : ∀ (σ2 : InitStateMap) (tr0 : List InitEvent),
        (if c.isInterface then
          some (RustOutcome.ok (), setState σ c.name ClassInitState.inProgress,
            ([] : List InitEvent))
        else
          match superclassesToBeInitialized reg c with
          | none => some (RustOutcome.err "failed to resolve supertypes",
              setState σ c.name ClassInitState.inProgress, [])
          | some scs => initSeqWith (initClass fuel reg orc)
              (setState σ c.name ClassInitState.inProgress) scs) =
            some (RustOutcome.ok (), σ2, tr0) →
        (InitEvent.enter c.name ∉ tr0 ∧ InitEvent.clinit c.name ∉ tr0) ∧
        (∀ d ∈ scs, σ d.name = ClassInitState.beforeInit → d.name ≠ c.name →
          InitEvent.enter d.name ∈ tr0 ∧ σ2 d.name = ClassInitState.succeeded) := by
      intro σ2 tr0 heq
      rw [if_neg (by simp [hi])] at heq
      rw [hscs] at heq
      constructor
      · exact initSeqWith_no_events (initClass fuel reg orc)
          (fun σa ca ra σa' tra ha => initClass_frame fuel reg orc σa ca ra σa' tra ha)
          (fun σa ca ra σa' tra ha => initClass_no_events fuel reg orc σa ca ra σa' tra ha)
          scs (setState σ c.name ClassInitState.inProgress) _ σ2 tr0 heq c.name
          (by rw [hσ1c]; simp)
      · intro d hd hdb hdc
        have hd1 : setState σ c.name ClassInitState.inProgress d.name =
            ClassInitState.beforeInit := by simp [setState, hdc, hdb]
        exact initSeqWith_member (initClass fuel reg orc)
          (fun σa ca ra σa' tra ha => initClass_frame fuel reg orc σa ca ra σa' tra ha)
          (fun σa ca ra σa' tra ha => initClass_change_enter fuel reg orc σa ca ra σa' tra ha)
          (fun σa ca σa' tra ha => initClass_ok_good fuel reg orc σa ca σa' tra ha)
          (fun σa ca σa' tra ha hba =>
            ⟨(initClass_result fuel reg orc σa ca _ σa' tra ha hba).1 rfl, by
              obtain ⟨t, ht⟩ := initClass_enter_head fuel reg orc σa ca _ σa' tra ha hba
              rw [ht]; simp⟩)
          scs (setState σ c.name ClassInitState.inProgress) σ2 tr0 heq d hd hd1
    simp only [initClass, hb] at h
    split at h
    · exact absurd h (by simp)
    · rename_i σ2 tr0 heq
      split at h
      · rename_i hsome
        split at h
        · -- own <clinit> ran and succeeded
          simp only [Option.some.injEq, Prod.mk.injEq] at h
          obtain ⟨-, hσ', htr⟩ := h
          have hm := hmain σ2 tr0 heq
          constructor
          · intro _
            refine ⟨tr0, htr.symm, hm.1.1, hm.1.2⟩
          · intro d hd hdb hdc
            have h2 := hm.2 d hd hdb hdc
            refine ⟨by rw [← htr]; simp [h2.1], ?_⟩
            rw [← hσ']
            have : setState σ2 c.name ClassInitState.succeeded d.name = σ2 d.name := by
              simp [setState, hdc]
            rw [this]
            exact h2.2
        · -- own <clinit> failed: result is Err, contradicting hok
          simp only [Option.some.injEq, Prod.mk.injEq] at h
          exact absurd h.1 (by simp)
      · rename_i hsome
        -- no <clinit> declared
        simp only [Option.some.injEq, Prod.mk.injEq] at h
        obtain ⟨-, hσ', htr⟩ := h
        have hm := hmain σ2 tr0 heq
        constructor
        · intro hs; exact absurd hs hsome
        · intro d hd hdb hdc
          have h2 := hm.2 d hd hdb hdc
          refine ⟨by rw [← htr]; simp [h2.1], ?_⟩
          rw [← hσ']
          have : setState σ2 c.name ClassInitState.succeeded d.name = σ2 d.name := by
            simp [setState, hdc]
          rw [this]
          exact h2.2
    · rename_i r0 σ2 tr0 hne heq
      simp only [Option.some.injEq, Prod.mk.injEq] at h
      exact absurd h.1 (by simpa using hne ())

/-- C9 witness: the recursion theorem instantiated at
`D extends S implements K, L` — `K` declares a default method (initialized),
`L` is abstract-only (skipped) — all `<clinit>`s succeeding. -/
theorem initClass_supertype_recursion_witness :
    ∃ r σ' tr, initClass 8 regC9 orcAllOk sigma0 clsD9 = some (r, σ', tr) ∧
      ((clsD9.isInterface = true →
        tr = InitEvent.enter clsD9.name ::
          (if (clsD9.lookupStaticMethod clinitSignature).isSome
           then [InitEvent.clinit clsD9.name] else [])) ∧
      (clsD9.isInterface = false →
        ∀ scs, superclassesToBeInitialized regC9 clsD9 = some scs →
        (scs.map Class.name =
          (match clsD9.superClass with | some s => [s] | none => []) ++
          clsD9.interfaces.filter (fun ifName =>
            match lookupClass regC9 ifName with
            | some iface => iface.instMethods.any (fun m => !m.accessFlags.isAbstract)
            | none => false)) ∧
        (r = RustOutcome.ok () →
          ((clsD9.lookupStaticMethod clinitSignature).isSome →
            ∃ t, tr = InitEvent.enter clsD9.name ::
                (t ++ [InitEvent.clinit clsD9.name]) ∧
              InitEvent.enter clsD9.name ∉ t ∧ InitEvent.clinit clsD9.name ∉ t) ∧
          (∀ d ∈ scs, sigma0 d.name = ClassInitState.beforeInit →
            d.name ≠ clsD9.name →
            InitEvent.enter d.name ∈ tr ∧
            σ' d.name = ClassInitState.succeeded)))) :=
  ⟨_, _, _, rfl,
    initClass_supertype_recursion 8 regC9 orcAllOk sigma0 clsD9 _ _ _ rfl rfl⟩

end Kafa
